import Mathlib

/-!
# Verification of the papers-feed source-identification, options and session code

This file gives a shallow embedding of the TypeScript extension code of the
papers-feed repository (`src/extension/source-integration/custom-source.ts`,
`src/extension/source-integration/source-manager-extension.ts`,
`src/extension/options.ts`, `background.ts`) and proves the behavioural
claims about it.

The code builds JavaScript `RegExp` values from user-supplied pattern strings
and matches URLs against them, so the embedding starts with an executable
model of the JavaScript regular-expression subset that the repository's
patterns use: literals, escapes, character classes with ranges, `.`, the
greedy quantifiers `*` `+` `?`, alternation, capturing and non-capturing
groups, anchors, and the `'i'` (case-insensitive) flag.  `String.match`
semantics are modelled faithfully: the search tries successive start
positions left to right; alternatives are tried left first and quantifiers
are greedy with backtracking; the returned match exposes the numbered
capture groups (a group that did not participate in the match is absent,
JavaScript's `undefined`); the length of the JavaScript match array is
`1 + (number of parenthesised groups in the pattern)`, participating or not.
-/

namespace PapersFeed

/-- ASCII lowercase folding, as performed by the JavaScript `'i'` flag on the
ASCII patterns and URLs the repository deals in. -/
def upperLowerTable : List (Char × Char) :=
  [('A','a'), ('B','b'), ('C','c'), ('D','d'), ('E','e'), ('F','f'), ('G','g'),
   ('H','h'), ('I','i'), ('J','j'), ('K','k'), ('L','l'), ('M','m'), ('N','n'),
   ('O','o'), ('P','p'), ('Q','q'), ('R','r'), ('S','s'), ('T','t'), ('U','u'),
   ('V','v'), ('W','w'), ('X','x'), ('Y','y'), ('Z','z')]

/-- Lowercase a character (ASCII simple case folding). -/
def lowerChar (c : Char) : Char :=
  match upperLowerTable.lookup c with
  | some l => l
  | none => c

/-- Regular-expression abstract syntax, covering the JavaScript subset used by
the repository's source patterns.  `cls neg l` is a character class with the
ranges expanded to the member list `l` (`neg` for a `[^...]` class); `group n`
is the `n`-th numbered capturing group (numbered by order of the opening
parenthesis, starting from 1, as in JavaScript). -/
inductive Regex where
  | emp : Regex
  | lit : Char → Regex
  | dot : Regex
  | cls : Bool → List Char → Regex
  | seq : Regex → Regex → Regex
  | alt : Regex → Regex → Regex
  | star : Regex → Regex
  | plus : Regex → Regex
  | opt : Regex → Regex
  | group : Nat → Regex → Regex
  | bol : Regex
  | eol : Regex
deriving DecidableEq, Repr

/-- Structural size of a regex, used as the secondary termination measure of
the matcher. -/
def rsize : Regex → Nat
  | .seq a b => rsize a + rsize b + 1
  | .alt a b => rsize a + rsize b + 1
  | .star a => rsize a + 1
  | .plus a => rsize a + 1
  | .opt a => rsize a + 1
  | .group _ a => rsize a + 1
  | _ => 1

/-- Number of parenthesised capturing groups in a regex: the JavaScript match
array for this regex has length `1 + groupCount r` whenever it matches. -/
def groupCount : Regex → Nat
  | .seq a b => groupCount a + groupCount b
  | .alt a b => groupCount a + groupCount b
  | .star a => groupCount a
  | .plus a => groupCount a
  | .opt a => groupCount a
  | .group _ a => 1 + groupCount a
  | _ => 0

/-- Character comparison under an optional case-insensitivity flag. -/
def charEq (ci : Bool) (a b : Char) : Bool :=
  if ci then lowerChar a == lowerChar b else a == b

/-- Character-class membership under an optional case-insensitivity flag. -/
def inClass (ci : Bool) (a : Char) (l : List Char) : Bool :=
  l.any (charEq ci a)

/-- The numbered capture groups of a match: group number paired with the
captured text.  A group absent from the list did not participate in the match
(JavaScript `undefined`). -/
abbrev Caps := List (Nat × List Char)

/-- Record the capture of group `n` (a later capture of the same group
shadows an earlier one, as JavaScript keeps the last). -/
def setCap (caps : Caps) (n : Nat) (v : List Char) : Caps :=
  (n, v) :: caps

/-- One step of the backtracking matcher: the body of `matchL` with the
recursive occurrences abstracted as `ih`. -/
def matchStep (ci : Bool) (flen : Nat)
    (ih : Regex → List Char → List (List Char × Caps)) (r : Regex)
    (s : List Char) : List (List Char × Caps) :=
  match r with
  | .emp => [(s, [])]
  | .lit c =>
    match s with
    | [] => []
    | a :: rest => if charEq ci a c then [(rest, [])] else []
  | .dot =>
    match s with
    | [] => []
    | a :: rest => if a == '\n' then [] else [(rest, [])]
  | .cls neg l =>
    match s with
    | [] => []
    | a :: rest => if (inClass ci a l) != neg then [(rest, [])] else []
  | .seq r1 r2 =>
    (ih r1 s).flatMap (fun p => (ih r2 p.1).map (fun q => (q.1, q.2 ++ p.2)))
  | .alt r1 r2 => ih r1 s ++ ih r2 s
  | .opt r1 => ih r1 s ++ [(s, [])]
  | .star r1 =>
    ((ih r1 s).flatMap (fun p =>
      if p.1.length < s.length then
        (ih (.star r1) p.1).map (fun q => (q.1, q.2 ++ p.2))
      else []))
    ++ [(s, [])]
  | .plus r1 =>
    (ih r1 s).flatMap (fun p =>
      (ih (.star r1) p.1).map (fun q => (q.1, q.2 ++ p.2)))
  | .group n r1 =>
    (ih r1 s).map (fun p => (p.1, setCap p.2 n (s.take (s.length - p.1.length))))
  | .bol => if s.length == flen then [(s, [])] else []
  | .eol => if s.isEmpty then [(s, [])] else []

/-- Backtracking regex matcher, anchored at the current position: all ways
`r` can match a prefix of `s`, in the JavaScript backtracking engine's
priority order (left alternative first, quantifiers greedy), each as the
remaining suffix paired with the captures recorded along that way (a later
capture of a group listed before an earlier one, as JavaScript keeps the
last).  The head of the list is the match the JavaScript engine returns.
`ci` is the `'i'` flag and `flen` the length of the whole subject (so that
`^` can recognise the start position).  `fuel` bounds the recursion depth —
defined by `Nat.rec` so that it evaluates by plain iota reduction; a
quantifier can only loop while consuming input, so any fuel above
`(length + 2) * (rsize + 2)` is plentiful. -/
def matchL (ci : Bool) (flen : Nat) (fuel : Nat) :
    Regex → List Char → List (List Char × Caps) :=
  @Nat.rec (fun _ => Regex → List Char → List (List Char × Caps))
    (fun _ _ => [])
    (fun _ ih => matchStep ci flen ih)
    fuel

/-- Fuel that is always sufficient for `matchL` on subject `s`. -/
def fuelFor (r : Regex) (s : List Char) : Nat :=
  (s.length + 2) * (rsize r + 2)

/-- Try to match `r` at successive start positions of the subject, left to
right, like the JavaScript regex search underlying `String.match`: the
captures of the backtracking engine's first match at the first matching
position.  `flen` is the length of the whole subject. -/
def searchFrom (ci : Bool) (flen : Nat) (r : Regex) : List Char → Option Caps
  | [] => (matchL ci flen (fuelFor r []) r []).head?.map Prod.snd
  | a :: rest =>
    ((matchL ci flen (fuelFor r (a :: rest)) r (a :: rest)).head?.map Prod.snd)
    <|> searchFrom ci flen r rest

/-- Model of JavaScript `subject.match(regex)` (non-global): `some caps` with
the numbered captures when the regex matches somewhere in the subject, `none`
when it does not. -/
def jsMatch (ci : Bool) (r : Regex) (s : List Char) : Option Caps :=
  searchFrom ci s.length r s

/-- Model of JavaScript `regex.test(subject)`. -/
def jsTest (ci : Bool) (r : Regex) (s : List Char) : Bool :=
  (jsMatch ci r s).isSome

/-! ## Parsing pattern strings

The repository stores patterns as strings and compiles them with
`new RegExp(string)` / `new RegExp(string, 'i')`, which throws a
`SyntaxError` on a malformed pattern (unterminated group or class, unmatched
`)`, a quantifier with nothing to repeat, a class range out of order, a
trailing backslash).  `parseRegex` models this: `some ast` models successful
compilation, `none` models the thrown `SyntaxError`.  It covers the syntax
the repository's patterns use; the rarely-used features it does not support
(lazy quantifiers, `{m,n}` counted repetition, look-around, back-references,
word boundaries, class escapes inside classes) are mapped conservatively. -/

def digitChars : List Char := ['0','1','2','3','4','5','6','7','8','9']

def wordChars : List Char :=
  (upperLowerTable.map Prod.fst) ++ (upperLowerTable.map Prod.snd) ++
  digitChars ++ ['_']

def spaceChars : List Char := [' ', '\t', '\n', '\r']

/-- Expansion of a class range `c-d` into its member characters. -/
def rangeChars (c d : Char) : List Char :=
  (List.range (d.toNat + 1 - c.toNat)).map (fun i => Char.ofNat (c.toNat + i))

/-- An escape sequence `\e` in atom position.  `none` models the escapes this
model does not support (word boundaries and back-references). -/
def parseEscape (e : Char) : Option Regex :=
  if e == 'd' then some (.cls false digitChars)
  else if e == 'D' then some (.cls true digitChars)
  else if e == 'w' then some (.cls false wordChars)
  else if e == 'W' then some (.cls true wordChars)
  else if e == 's' then some (.cls false spaceChars)
  else if e == 'S' then some (.cls true spaceChars)
  else if e == 'n' then some (.lit '\n')
  else if e == 't' then some (.lit '\t')
  else if e == 'r' then some (.lit '\r')
  else if e == 'b' || e == 'B' then none
  else if e ∈ digitChars then none
  else some (.lit e)

/-- Body of a character class, after `[` (and after a leading `^` was
consumed): the member characters (ranges expanded) and the input following
the closing `]`.  `none` models `SyntaxError`: an unterminated class or a
range out of order. -/
def parseClassBody : List Char → Option (List Char × List Char)
  | [] => none
  | ']' :: rest => some ([], rest)
  | '\\' :: e :: rest =>
    (if e == 'd' then some digitChars
     else if e == 'w' then some wordChars
     else if e == 's' then some spaceChars
     else if e == 'n' then some ['\n']
     else if e == 't' then some ['\t']
     else if e == 'r' then some ['\r']
     else if e == 'd' || e == 'D' || e == 'W' || e == 'S' || e == 'b' then none
     else some [e]).bind
    (fun ms => (parseClassBody rest).map (fun p => (ms ++ p.1, p.2)))
  | '\\' :: [] => none
  | c :: '-' :: ']' :: rest => some ([c, '-'], rest)
  | c :: '-' :: d :: rest =>
    if c.toNat ≤ d.toNat then
      (parseClassBody rest).map (fun p => (rangeChars c d ++ p.1, p.2))
    else none
  | c :: rest => (parseClassBody rest).map (fun p => (c :: p.1, p.2))

/-- Result of a parsing function: the parsed regex, the remaining input and
the next free capturing-group number (`none` models `SyntaxError`). -/
abbrev PRes := Option (Regex × List Char × Nat)

/-- The triple of mutually recursive parsing functions (atom, sequence,
disjunction) at one fuel level. -/
abbrev PFns := (List Char → Nat → PRes) × (List Char → Nat → PRes) ×
  (List Char → Nat → PRes)

/-- One step of the recursive-descent parser: the bodies of
`parseAtom` / `parseSeq` / `parseAlt`, with the recursive occurrences (at
the previous fuel level) abstracted as `ih` (`ih.1` the atom parser,
`ih.2.1` the sequence parser, `ih.2.2` the disjunction parser).

Atom: literal, escape, class, group, anchor, `.`; a leading quantifier or a
stray `)` is a `SyntaxError`.  Sequence: a (possibly empty) run of
quantified atoms, stopping at `|`, `)` or the end of input; a quantifier
directly following a quantifier (`a**`) is a `SyntaxError`.  Disjunction:
`alt₁|alt₂|…`. -/
def parseStep (ih : PFns) : PFns :=
  ( fun cs g =>
      match cs with
      | [] => none
      | '(' :: '?' :: ':' :: rest =>
        (ih.2.2 rest g).bind (fun p =>
          match p.2.1 with
          | ')' :: rest' => some (p.1, rest', p.2.2)
          | _ => none)
      | '(' :: '?' :: _ => none
      | '(' :: rest =>
        (ih.2.2 rest (g + 1)).bind (fun p =>
          match p.2.1 with
          | ')' :: rest' => some (.group g p.1, rest', p.2.2)
          | _ => none)
      | ')' :: _ => none
      | '[' :: '^' :: rest =>
        (parseClassBody rest).map (fun p => (.cls true p.1, p.2, g))
      | '[' :: rest =>
        (parseClassBody rest).map (fun p => (.cls false p.1, p.2, g))
      | '\\' :: e :: rest => (parseEscape e).map (fun r => (r, rest, g))
      | '\\' :: [] => none
      | '.' :: rest => some (.dot, rest, g)
      | '^' :: rest => some (.bol, rest, g)
      | '$' :: rest => some (.eol, rest, g)
      | '*' :: _ => none
      | '+' :: _ => none
      | '?' :: _ => none
      | '|' :: _ => none
      | c :: rest => some (.lit c, rest, g)
  , fun cs g =>
      match cs with
      | [] => some (.emp, [], g)
      | '|' :: rest => some (.emp, '|' :: rest, g)
      | ')' :: rest => some (.emp, ')' :: rest, g)
      | _ =>
        (ih.1 cs g).bind (fun p =>
          let quantified : Regex × List Char :=
            match p.2.1 with
            | '*' :: rest' => (.star p.1, rest')
            | '+' :: rest' => (.plus p.1, rest')
            | '?' :: rest' => (.opt p.1, rest')
            | rest' => (p.1, rest')
          match quantified.2 with
          | '*' :: _ => none
          | '+' :: _ => none
          | '?' :: _ => none
          | rest2 =>
            (ih.2.1 rest2 p.2.2).map (fun q =>
              (.seq quantified.1 q.1, q.2.1, q.2.2)))
  , fun cs g =>
      (ih.2.1 cs g).bind (fun p =>
        match p.2.1 with
        | '|' :: rest =>
          (ih.2.2 rest p.2.2).map (fun q => (.alt p.1 q.1, q.2.1, q.2.2))
        | rest => some (p.1, rest, p.2.2)) )

/-- The parsing functions at a given fuel (defined by `Nat.rec` so that they
evaluate by plain iota reduction; at fuel 0 everything is a parse error, and
the fuel `parseRegex` provides is plentiful). -/
def parseFns (fuel : Nat) : PFns :=
  @Nat.rec (fun _ => PFns)
    (fun _ _ => none, fun _ _ => none, fun _ _ => none)
    (fun _ ih => parseStep ih)
    fuel

/-- Parse a disjunction: the entry point of the grammar. -/
def parseAlt (fuel : Nat) (cs : List Char) (g : Nat) : PRes :=
  (parseFns fuel).2.2 cs g

/-- Model of `new RegExp(pattern)`: `some ast` when the pattern string
compiles, `none` when the constructor throws a `SyntaxError`.  Capturing
groups are numbered from 1 in order of their opening parenthesis.  Leftover
input (an unmatched `)`) is a `SyntaxError`. -/
def parseRegex (p : String) : Option Regex :=
  match parseAlt (4 * (p.length + 4)) p.data 1 with
  | some (r, [], _) => some r
  | _ => none

/-! ## Custom source integrations (`source-integration/custom-source.ts`) -/

/-- A thrown JavaScript exception; the only one arising in the modelled code
is the `SyntaxError` of the `RegExp` constructor. -/
inductive JsError where
  | syntaxError : JsError
deriving DecidableEq, Repr

/-- Source pattern definition from settings
(`source-manager-extension.ts` / `options.ts`). -/
structure SourcePattern where
  id : String
  name : String
  urlPattern : String
  idRegex : String
deriving DecidableEq, Repr

/-- The default arXiv pattern (`background.ts`, `DEFAULT_PATTERNS[0]`). -/
def arxivPattern : SourcePattern :=
  { id := "arxiv", name := "arXiv",
    urlPattern := "arxiv\\.org\\/(abs|pdf)\\/([0-9]+\\.[0-9]+)",
    idRegex := "arxiv\\.org\\/(abs|pdf)\\/([0-9]+\\.[0-9]+)" }

/-- The default DOI pattern (`background.ts`, `DEFAULT_PATTERNS[1]`). -/
def doiPattern : SourcePattern :=
  { id := "doi", name := "DOI",
    urlPattern := "doi\\.org\\/([\\w\\.\\-\\/]+)",
    idRegex := "doi\\.org\\/([\\w\\.\\-\\/]+)" }

/-- The default generic pattern (`background.ts`, `DEFAULT_PATTERNS[2]`). -/
def paperPattern : SourcePattern :=
  { id := "paper", name := "Paper",
    urlPattern := ".*\\/paper\\/([\\w-]+).*",
    idRegex := "\\/paper\\/([\\w-]+)" }

/-- Default source patterns of `background.ts` (`DEFAULT_PATTERNS`). -/
def DEFAULT_PATTERNS : List SourcePattern :=
  [arxivPattern, doiPattern, paperPattern]

/-- A constructed `CustomSourceIntegration`: the pattern strings it stores
and the compiled url matcher (`urlPatterns = [new RegExp(urlPatternString,
'i')]`, a one-element array in the source).  `idRegexString` is kept as a
string and compiled lazily inside `extractPaperId`. -/
structure CustomSourceIntegration where
  id : String
  name : String
  urlPatternString : String
  urlRegex : Regex
  idRegexString : String
deriving DecidableEq, Repr

/-- The `CustomSourceIntegration` constructor: it evaluates
`new RegExp(urlPatternString, 'i')`, so it throws when the url pattern
string does not compile; the id regex string is merely stored. -/
def CustomSourceIntegration.make (sourceId sourceName urlPatternString idRegexString : String) :
    Except JsError CustomSourceIntegration :=
  match parseRegex urlPatternString with
  | none => .error .syntaxError
  | some r => .ok { id := sourceId, name := sourceName,
                    urlPatternString := urlPatternString, urlRegex := r,
                    idRegexString := idRegexString }

/-- Modelled from the spec: `BaseSourceIntegration.extractPaperId`
(`source-integration/base-source.ts`) is not part of the repository
snapshot — only its subclass and callers are.  Per §4.2 the default
extraction rule is the "reuse of the url-matcher's own capture": match the
URL against the source's (case-insensitively compiled) url pattern and
return its first capture group when the pattern has one. -/
def baseExtractPaperId (src : CustomSourceIntegration) (url : List Char) :
    Option (List Char) :=
  match jsMatch true src.urlRegex url with
  | none => none
  | some caps =>
    if 1 ≤ groupCount src.urlRegex then caps.lookup 1 else none

/-- The part of the `try` block of `CustomSourceIntegration.extractPaperId`
after the id regex compiled: `.ok (some v)` models `return match[1]` (where
`v = none` is JavaScript's `undefined`, a declared first group that did not
participate in the match), and `.ok none` models falling out of the `try`
block because `match` was `null` or `match.length ≤ 1` (a pattern with no
capture groups). -/
def extractTryMatch (idRegex : Regex) (url : List Char) :
    Except JsError (Option (Option (List Char))) :=
  match jsMatch true idRegex url with
  | some caps =>
    if 1 ≤ groupCount idRegex then .ok (some (caps.lookup 1))
    else .ok none
  | none => .ok none

/-- The whole `try` block of `CustomSourceIntegration.extractPaperId`:
`.error` models a thrown exception — the `RegExp` constructor on a bad
`idRegexString` — and the other outcomes are as in `extractTryMatch`. -/
def extractTry (src : CustomSourceIntegration) (url : List Char) :
    Except JsError (Option (Option (List Char))) :=
  match parseRegex src.idRegexString with
  | none => .error .syntaxError
  | some idRegex => extractTryMatch idRegex url

/-- `CustomSourceIntegration.extractPaperId` with its exception behaviour
explicit: the `try`/`catch` swallows any thrown error (logging it) and the
code then falls through to `super.extractPaperId(url)`, so the result is
always `.ok`. -/
def CustomSourceIntegration.extractPaperIdE (src : CustomSourceIntegration)
    (url : List Char) : Except JsError (Option (List Char)) :=
  match extractTry src url with
  | .ok (some v) => .ok v
  | .ok none => .ok (baseExtractPaperId src url)
  | .error _ => .ok (baseExtractPaperId src url)

/-- `CustomSourceIntegration.extractPaperId` as the caller sees it. -/
def CustomSourceIntegration.extractPaperId (src : CustomSourceIntegration)
    (url : List Char) : Option (List Char) :=
  match src.extractPaperIdE url with
  | .ok v => v
  | .error _ => none

/-! ## The extended source manager (`source-manager-extension.ts`)

The file contains two revisions of `ExtendedSourceManager`; both are
embedded.  The base class `SourceIntegrationManager` (`source-manager.ts`)
is not part of the snapshot; its registry is modelled from the spec
(§4.1/§4.2): a map of sources keyed by `id` in registration order, where
`registerSource` replaces an existing entry with the same `id`, and
identification walks the registered sources in order and, at the first
source whose url matcher matches, returns that source's id together with
its extracted paper id. -/

/-- The output of identification (`{sourceId, paperId}`). -/
structure ResolvedSource where
  sourceId : String
  paperId : List Char
deriving DecidableEq, Repr

/-- Modelled from the spec: the base manager's `registerSource` — insert
keyed by `id`, replacing an existing entry with the same `id` in place
(replace semantics, §3/§4.1). -/
def registerSourceList (src : CustomSourceIntegration) :
    List CustomSourceIntegration → List CustomSourceIntegration
  | [] => [src]
  | s :: rest =>
    if s.id = src.id then src :: rest else s :: registerSourceList src rest

/-- Modelled from the spec: the base manager's `extractPaperId(url)`
(called by `handleIdentifySource` in `background.ts`) — walk the registered
sources in registration order; at the first source one of whose url patterns
matches the URL, extract the paper id and return `{sourceId, paperId}`;
`null` when no source matches (§4.2). -/
def managerExtractPaperId (sources : List CustomSourceIntegration)
    (url : List Char) : Option ResolvedSource :=
  match sources.find? (fun s => jsTest true s.urlRegex url) with
  | none => none
  | some s => (s.extractPaperId url).map (fun pid => ⟨s.id, pid⟩)

/-- JavaScript `Map.set` on an association list: replace the value in place
when the key is present, append otherwise. -/
def mapSet {α : Type} (k : String) (v : α) :
    List (String × α) → List (String × α)
  | [] => [(k, v)]
  | p :: rest => if p.1 = k then (k, v) :: rest else p :: mapSet k v rest

/-- State of the first revision of `ExtendedSourceManager`: the base
manager's registry (`sources`, private in the parent), the bookkeeping set
`customSourceIds` of user-defined source ids, and the revision's own
`customSources` map ("we can't access the private property"). -/
structure ManagerV1 where
  sources : List CustomSourceIntegration
  customSourceIds : Finset String
  customSources : List (String × CustomSourceIntegration)
deriving DecidableEq

/-- `clearCustomSources` of the first revision: every custom id is deleted
from the revision's own `customSources` map — the comment in the source
notes that the parent's private `sources` map cannot be touched — and the
bookkeeping set is cleared. -/
def clearCustomSourcesV1 (st : ManagerV1) : ManagerV1 :=
  { st with
    customSources := st.customSources.filter
      (fun p => decide (p.1 ∉ st.customSourceIds)),
    customSourceIds := ∅ }

/-- `registerCustomSource` of the first revision, with its exception
behaviour explicit: constructing the `CustomSourceIntegration` may throw (a
bad `urlPattern`); the surrounding `try`/`catch` logs the error and returns
normally, so the result is always `.ok`.  On success the id is tracked, the
source is put in the revision's map, and `registerSource` inserts it into
the parent registry (replacing an entry with the same id). -/
def registerCustomSourceV1E (pat : SourcePattern) (st : ManagerV1) :
    Except JsError ManagerV1 :=
  match CustomSourceIntegration.make pat.id pat.name pat.urlPattern pat.idRegex with
  | .error _ => .ok st
  | .ok src =>
    .ok { st with
          customSourceIds := insert pat.id st.customSourceIds,
          customSources := mapSet pat.id src st.customSources,
          sources := registerSourceList src st.sources }

/-- `registerCustomSource` of the first revision as the caller sees it. -/
def registerCustomSourceV1 (pat : SourcePattern) (st : ManagerV1) : ManagerV1 :=
  match registerCustomSourceV1E pat st with
  | .ok st' => st'
  | .error _ => st

/-- `getAllSources` of the first revision: the parent's sources with those
shadowed by a custom id filtered out, followed by the custom sources. -/
def getAllSourcesV1 (st : ManagerV1) : List CustomSourceIntegration :=
  (st.sources.filter (fun s => decide (s.id ∉ st.customSourceIds))) ++
  st.customSources.map Prod.snd

/-- State of the second revision of `ExtendedSourceManager`: it reaches the
base manager's registry directly (`this.sources`), so it keeps no map of its
own — only the bookkeeping set of custom ids. -/
structure ManagerV2 where
  sources : List CustomSourceIntegration
  customSourceIds : Finset String
deriving DecidableEq

/-- `clearCustomSources` of the second revision: every custom id is deleted
from the registry (`this.sources.delete(sourceId)`) and the bookkeeping set
is cleared — one atomic step of the model. -/
def clearCustomSourcesV2 (st : ManagerV2) : ManagerV2 :=
  { sources := st.sources.filter (fun s => decide (s.id ∉ st.customSourceIds)),
    customSourceIds := ∅ }

/-- `registerCustomSource` of the second revision, exception behaviour
explicit (see `registerCustomSourceV1E`). -/
def registerCustomSourceV2E (pat : SourcePattern) (st : ManagerV2) :
    Except JsError ManagerV2 :=
  match CustomSourceIntegration.make pat.id pat.name pat.urlPattern pat.idRegex with
  | .error _ => .ok st
  | .ok src =>
    .ok { customSourceIds := insert pat.id st.customSourceIds,
          sources := registerSourceList src st.sources }

/-- `registerCustomSource` of the second revision as the caller sees it. -/
def registerCustomSourceV2 (pat : SourcePattern) (st : ManagerV2) : ManagerV2 :=
  match registerCustomSourceV2E pat st with
  | .ok st' => st'
  | .error _ => st

/-- `handleStorageChanges` of the second revision, for a delivered change to
the `sourcePatterns` key: clear the existing custom sources, then register
every pattern of `newValue || []` (`newValue` is `none` when the key was
deleted). -/
def handleStorageChangesV2 (newValue : Option (List SourcePattern))
    (st : ManagerV2) : ManagerV2 :=
  (newValue.getD []).foldl (fun acc pat => registerCustomSourceV2 pat acc)
    (clearCustomSourcesV2 st)

/-! ## The options page (`options.ts`) -/

/-- Settings of the options page.  The optional string fields are
`undefined` when absent, modelled as `none`. -/
structure Settings where
  githubRepo : Option String
  githubToken : Option String
  sourcePatterns : List SourcePattern
deriving DecidableEq

/-- The errors `validateSettings` throws. -/
inductive ValidationError where
  | invalidRepoFormat : ValidationError
  | invalidCreds : ValidationError
  | noPatterns : ValidationError
  | duplicateId : String → ValidationError
  | missingId : ValidationError
  | missingName : ValidationError
  | missingUrlPattern : ValidationError
  | missingIdRegex : ValidationError
  | invalidRegex : ValidationError
deriving DecidableEq, Repr

/-- The repository-format test of `validateSettings`:
`/^[\w-]+\/[\w-]+$/.test(repo)`. -/
def repoFormatOk (repo : String) : Bool :=
  match parseRegex "^[\\w-]+\\/[\\w-]+$" with
  | some r => jsTest false r repo.data
  | none => false

/-- The duplicate-id loop of `validateSettings`: throw at the first pattern
whose id was already seen. -/
def checkDuplicateIds : List SourcePattern → Finset String →
    Except ValidationError Unit
  | [], _ => .ok ()
  | p :: rest, seen =>
    if p.id ∈ seen then .error (.duplicateId p.id)
    else checkDuplicateIds rest (insert p.id seen)

/-- The per-pattern checks of `validateSettings`: the four required fields
(a missing field arrives as the falsy empty string from the form reader),
then `new RegExp(pattern.urlPattern); new RegExp(pattern.idRegex)` inside
one `try`, whose `catch` rethrows a single "invalid regular expression"
error. -/
def checkPattern (p : SourcePattern) : Except ValidationError Unit :=
  if p.id = "" then .error .missingId
  else if p.name = "" then .error .missingName
  else if p.urlPattern = "" then .error .missingUrlPattern
  else if p.idRegex = "" then .error .missingIdRegex
  else
    match parseRegex p.urlPattern, parseRegex p.idRegex with
    | some _, some _ => .ok ()
    | _, _ => .error .invalidRegex

/-- Fold of `checkPattern` over the pattern list, stopping at the first
error, as the `for` loop does. -/
def checkPatterns : List SourcePattern → Except ValidationError Unit
  | [] => .ok ()
  | p :: rest =>
    match checkPattern p with
    | .ok _ => checkPatterns rest
    | .error e => .error e

/-- `validateSettings` of `options.ts`: repository format, then the
credential probe (a network call; its success is the oracle parameter
`apiOk`, consulted only when both repo and token are provided), then the
pattern checks: at least one pattern, no duplicate ids, required fields and
compilable regexes.  `.error` models the function throwing. -/
def validateSettings (apiOk : Bool) (s : Settings) :
    Except ValidationError Unit :=
  if s.githubRepo.isSome && !(repoFormatOk (s.githubRepo.getD "")) then
    .error .invalidRepoFormat
  else if s.githubRepo.isSome && s.githubToken.isSome && !apiOk then
    .error .invalidCreds
  else if s.sourcePatterns.length = 0 then
    .error .noPatterns
  else
    match checkDuplicateIds s.sourcePatterns ∅ with
    | .error e => .error e
    | .ok _ => checkPatterns s.sourcePatterns

/-- The `chrome.storage.sync` area as the options page writes it. -/
structure StorageState where
  githubRepo : Option String
  githubToken : Option String
  sourcePatterns : Option (List SourcePattern)
deriving DecidableEq

/-- `saveSettings`: write the three keys to storage. -/
def saveSettings (s : Settings) (_storage : StorageState) : StorageState :=
  { githubRepo := s.githubRepo, githubToken := s.githubToken,
    sourcePatterns := some s.sourcePatterns }

/-- The save-button click handler of `options.ts` combined with the
`chrome.storage.onChanged` listener of `background.ts`: `validateSettings`
is awaited before `saveSettings`, so a validation error leaves the storage
area untouched; only a successful save changes the `sourcePatterns` key,
which is what triggers `handleStorageChanges` on the source manager.  The
triple returned is (storage, source-manager registry, error shown by
`showStatus` if any). -/
def saveButtonClick (apiOk : Bool) (s : Settings) (storage : StorageState)
    (mgr : ManagerV2) : StorageState × ManagerV2 × Option ValidationError :=
  match validateSettings apiOk s with
  | .error e => (storage, mgr, some e)
  | .ok _ =>
    (saveSettings s storage, handleStorageChangesV2 (some s.sourcePatterns) mgr,
     none)

/-! ## The session lifecycle manager

Modelled from the spec: `SessionService` (`utils/session-service.ts`) is not
part of the repository snapshot — only its callers `handleStartSession`,
`handleSessionHeartbeat` and `handleEndSession` in `background.ts` are.  The
model follows §3 and §4.4: a single optional current session; `start` ends a
previously `Active` session first (its `endedAt` is set and a last
heartbeat-equivalent accrual is performed) and then activates the new one
with `startedAt = lastHeartbeatAt = now` and zero accumulated time;
`heartbeat` adds `min(now - lastHeartbeatAt, maxGapMs)` to
`accumulatedActiveMs` and sets `lastHeartbeatAt = now`, and is a no-op when
no session is active; `end` finalizes the current session.  Timestamps are
milliseconds (`Date.now()`), modelled as `Nat`. -/

/-- A reading session (§3). -/
structure Session where
  sourceId : String
  paperId : String
  startedAt : Nat
  lastHeartbeatAt : Nat
  endedAt : Option Nat
  accumulatedActiveMs : Nat
deriving DecidableEq, Repr

/-- The session service's state: the at-most-one current session and the
finalized sessions. -/
structure SessionState where
  current : Option Session
  ended : List Session
deriving DecidableEq, Repr

/-- One heartbeat-equivalent accrual at time `now` (§4.4). -/
def accrue (maxGap now : Nat) (s : Session) : Session :=
  { s with
    accumulatedActiveMs := s.accumulatedActiveMs + min (now - s.lastHeartbeatAt) maxGap,
    lastHeartbeatAt := now }

/-- `endSession` at time `now`: a final accrual, `endedAt = now`, and the
session becomes immutable (moved to `ended`); a no-op when no session is
active (§4.4). -/
def endSession (maxGap now : Nat) (st : SessionState) : SessionState :=
  match st.current with
  | none => st
  | some s =>
    { current := none,
      ended := st.ended ++ [{ accrue maxGap now s with endedAt := some now }] }

/-- `startSession` at time `now`: end any active session first, then
activate a fresh one (§4.4). -/
def startSession (maxGap now : Nat) (srcId pid : String)
    (st : SessionState) : SessionState :=
  { endSession maxGap now st with
    current := some { sourceId := srcId, paperId := pid, startedAt := now,
                      lastHeartbeatAt := now, endedAt := none,
                      accumulatedActiveMs := 0 } }

/-- `recordHeartbeat` at time `now` (§4.4). -/
def recordHeartbeat (maxGap now : Nat) (st : SessionState) : SessionState :=
  match st.current with
  | none => st
  | some s => { st with current := some (accrue maxGap now s) }

/-- Deliver a sequence of heartbeats at the given times, in order. -/
def runHeartbeats (maxGap : Nat) (ts : List Nat) (st : SessionState) :
    SessionState :=
  ts.foldl (fun acc t => recordHeartbeat maxGap t acc) st

/-- Number of `Active` sessions in a state: the current one if any, plus any
session in the archive that was never finalized. -/
def activeCount (st : SessionState) : Nat :=
  (if st.current.isSome then 1 else 0) +
  (st.ended.filter (fun s => s.endedAt.isNone)).length

/-! ## Auxiliary notions used by the statements -/

/-- The integration a pattern constructs, for patterns whose `urlPattern`
compiles (used to state concrete scenarios; the fallback arm is never
reached there). -/
def srcOfPattern (p : SourcePattern) : CustomSourceIntegration :=
  match CustomSourceIntegration.make p.id p.name p.urlPattern p.idRegex with
  | .ok src => src
  | .error _ =>
    { id := p.id, name := p.name, urlPatternString := p.urlPattern,
      urlRegex := .emp, idRegexString := p.idRegex }

/-- Two character lists differ only in letter case. -/
def caseVariant (s1 s2 : List Char) : Prop :=
  s1.map lowerChar = s2.map lowerChar

/-- Case-folded view of a capture list: group numbers with the captured
texts lowercased. -/
def capsKey (c : Caps) : List (Nat × List Char) :=
  c.map (fun p => (p.1, p.2.map lowerChar))

/-- Case-folded view of one matcher result: the remaining suffix and the
captures, both lowercased. -/
def resKey (p : List Char × Caps) : List Char × List (Nat × List Char) :=
  (p.1.map lowerChar, capsKey p.2)

/-- A pattern set that is malformed in one of the three ways claim C6 lists:
some regex does not compile, some required field is missing (empty), or two
patterns share an id. -/
def malformedPatternSet (l : List SourcePattern) : Prop :=
  (∃ p ∈ l, parseRegex p.urlPattern = none ∨ parseRegex p.idRegex = none) ∨
  (∃ p ∈ l, p.id = "" ∨ p.name = "" ∨ p.urlPattern = "" ∨ p.idRegex = "") ∨
  ¬ (l.map (fun p => p.id)).Nodup

/-- The manager state `background.ts` builds at startup when no patterns are
stored: the default patterns registered in order into a fresh manager. -/
def initialManager : ManagerV2 :=
  DEFAULT_PATTERNS.foldl (fun st p => registerCustomSourceV2 p st)
    { sources := [], customSourceIds := ∅ }

/-- Bookkeeping invariant of the first-revision manager state, maintained by
construction through `registerCustomSource` / `clearCustomSources`: the
parent registry and the revision's own map are keyed without duplicates,
each mapped integration carries its key as its id, and every custom key is
both tracked in the bookkeeping set and present in the parent registry. -/
def managerV1WF (st : ManagerV1) : Prop :=
  (st.sources.map (fun s => s.id)).Nodup ∧
  (st.customSources.map Prod.fst).Nodup ∧
  (∀ q ∈ st.customSources, q.2.id = q.1) ∧
  (∀ k ∈ st.customSources.map Prod.fst,
    k ∈ st.customSourceIds ∧ k ∈ st.sources.map (fun s => s.id))

/-- The condition under which `extractPaperId` does not return an extracted
id from its own `idRegexString` and control reaches the final
`return super.extractPaperId(url)` line or the `catch` block: the id regex
does not compile, does not match the URL, or declares no capture group. -/
def idExtractorNoGroup (src : CustomSourceIntegration) (url : List Char) : Bool :=
  match parseRegex src.idRegexString with
  | none => true
  | some r => (jsMatch true r url).isNone || groupCount r == 0

/-! ## Theorems -/

/-- When the id regex string does not compile, the `try` block of
`extractPaperId` throws. -/
theorem extractTry_parse_none {src : CustomSourceIntegration} {url : List Char}
    (h : parseRegex src.idRegexString = none) :
    extractTry src url = .error .syntaxError := by
  unfold extractTry
  rw [h]

/-- When the id regex string compiles, the `try` block proceeds to the
match. -/
theorem extractTry_parse_some {src : CustomSourceIntegration} {url : List Char}
    {r : Regex} (h : parseRegex src.idRegexString = some r) :
    extractTry src url = extractTryMatch r url := by
  unfold extractTry
  rw [h]

/-- When the id regex does not match the URL, control falls out of the
`try` block. -/
theorem extractTryMatch_no_match {r : Regex} {url : List Char}
    (h : jsMatch true r url = none) : extractTryMatch r url = .ok none := by
  unfold extractTryMatch
  rw [h]

/-- When the id regex declares no capture group (`match.length ≤ 1`),
control falls out of the `try` block. -/
theorem extractTryMatch_no_group {r : Regex} {url : List Char}
    (h : groupCount r = 0) : extractTryMatch r url = .ok none := by
  unfold extractTryMatch
  cases hj : jsMatch true r url with
  | none => rfl
  | some caps => rw [h]; rfl

/-- `extractPaperId` in terms of the outcome of its `try` block. -/
theorem extractPaperId_of_try {src : CustomSourceIntegration}
    {url : List Char} {o : Option (Option (List Char))}
    (h : extractTry src url = .ok o) :
    src.extractPaperId url = o.getD (baseExtractPaperId src url) := by
  unfold CustomSourceIntegration.extractPaperId
    CustomSourceIntegration.extractPaperIdE
  rw [h]
  cases o <;> rfl

/-- The `try`/`catch` of `extractPaperId` converts every outcome of the
`try` block into a normal return. -/
theorem extractPaperIdE_ok (src : CustomSourceIntegration) (url : List Char) :
    src.extractPaperIdE url = .ok (src.extractPaperId url) := by
  unfold CustomSourceIntegration.extractPaperId
  cases h : src.extractPaperIdE url with
  | ok v => rfl
  | error e =>
    exfalso
    unfold CustomSourceIntegration.extractPaperIdE at h
    cases h2 : extractTry src url with
    | ok o => rw [h2] at h; cases o <;> simp at h
    | error e2 => rw [h2] at h; simp at h

/-- Claim C1: at the input URL `https://arxiv.org/abs/2301.00001`, the
identification pipeline with the default arXiv pattern returns
`sourceId = "arxiv"` but `paperId = "abs"` — `match[1]`, the first capture
group of the id regex, is the `(abs|pdf)` alternation group, not the arXiv
identifier `2301.00001` the specification's scenario expects. -/
theorem claim1_default_arxiv_extracts_abs :
    managerExtractPaperId initialManager.sources
      "https://arxiv.org/abs/2301.00001".data =
      some { sourceId := "arxiv", paperId := "abs".data } ∧
    CustomSourceIntegration.extractPaperId (srcOfPattern arxivPattern)
      "https://arxiv.org/abs/2301.00001".data = some "abs".data ∧
    "abs".data ≠ "2301.00001".data := by
  exact ⟨by decide, by decide, by decide⟩

/-- Claim C10: `extractPaperId` never lets an exception escape — for every
id regex string, including ones that are not valid regular expressions, the
call completes normally, and whenever the regex construction threw
(`parseRegex` returns `none`) the result is the base implementation's
extraction result. -/
theorem claim10_extract_never_throws (src : CustomSourceIntegration)
    (url : List Char) :
    src.extractPaperIdE url = .ok (src.extractPaperId url) ∧
    (parseRegex src.idRegexString = none →
      src.extractPaperId url = baseExtractPaperId src url) := by
  refine ⟨extractPaperIdE_ok src url, fun hp => ?_⟩
  unfold CustomSourceIntegration.extractPaperId
    CustomSourceIntegration.extractPaperIdE
  rw [extractTry_parse_none hp]

/-- Witness for C10 at a concrete integration whose id regex string `"("`
does not compile. -/
theorem claim10_witness :
    parseRegex (srcOfPattern ⟨"s1", "S1", "(x)", "("⟩).idRegexString = none ∧
    CustomSourceIntegration.extractPaperId (srcOfPattern ⟨"s1", "S1", "(x)", "("⟩)
      "x".data =
      baseExtractPaperId (srcOfPattern ⟨"s1", "S1", "(x)", "("⟩) "x".data :=
  ⟨by decide,
   (claim10_extract_never_throws (srcOfPattern ⟨"s1", "S1", "(x)", "("⟩)
     "x".data).2 (by decide)⟩

/-- Claim C4, counterexample: registering the pattern whose `urlPattern`
`"("` does not compile produces no typed error outcome at all — the
constructor error is caught inside `registerCustomSource`, which returns
normally with the registry unchanged, indistinguishable from a successful
no-op. -/
theorem claim4_counterexample :
    CustomSourceIntegration.make "bad" "Bad" "(" "x" = .error .syntaxError ∧
    registerCustomSourceV2E ⟨"bad", "Bad", "(", "x"⟩
      { sources := [], customSourceIds := ∅ } =
      .ok { sources := [], customSourceIds := ∅ } :=
  ⟨rfl, rfl⟩

/-- Claim C4, amended: when constructing the integration for a pattern
fails, `registerCustomSource` catches the error, only logs it, and returns
normally with the registry unchanged — the caller receives no error
outcome. -/
theorem claim4_registration_error_swallowed (pat : SourcePattern)
    (st : ManagerV2) (e : JsError)
    (h : CustomSourceIntegration.make pat.id pat.name pat.urlPattern pat.idRegex
      = .error e) :
    registerCustomSourceV2E pat st = .ok st := by
  unfold registerCustomSourceV2E
  rw [h]

/-- Witness for the amended C4 at a concrete unparseable pattern. -/
theorem claim4_witness :
    registerCustomSourceV2E ⟨"b2", "B2", "[", "y"⟩
      { sources := [], customSourceIds := ∅ } =
      .ok { sources := [], customSourceIds := ∅ } :=
  claim4_registration_error_swallowed ⟨"b2", "B2", "[", "y"⟩
    { sources := [], customSourceIds := ∅ } .syntaxError rfl

/-- Claim C3, counterexample: for the pattern with `urlPattern = "(x)"` and
`idRegex = "(a)|b"` on the URL `"xb"`, the url matcher matches and the id
extractor produces no capture (group 1 does not participate in the match of
`"b"`), yet `extractPaperId` returns JavaScript's `undefined` (`none`)
rather than falling through to the base extraction, which would give
`"x"`. -/
theorem claim3_counterexample :
    jsTest true (srcOfPattern ⟨"t", "T", "(x)", "(a)|b"⟩).urlRegex "xb".data
      = true ∧
    idExtractorNoGroup (srcOfPattern ⟨"t", "T", "(x)", "(a)|b"⟩) "xb".data
      = false ∧
    CustomSourceIntegration.extractPaperId (srcOfPattern ⟨"t", "T", "(x)", "(a)|b"⟩)
      "xb".data = none ∧
    baseExtractPaperId (srcOfPattern ⟨"t", "T", "(x)", "(a)|b"⟩) "xb".data
      = some "x".data := by
  exact ⟨by decide, by decide, by decide, by decide⟩

/-- Claim C3, amended: whenever the url matcher matches but the id
extractor does not produce a capture group because it does not compile,
does not match, or declares no capture group, `extractPaperId` falls
through to the base implementation's extraction result; only a declared
group that fails to participate in a match is returned as-is
(JavaScript's `undefined`) instead. -/
theorem claim3_fallback_on_no_group (src : CustomSourceIntegration)
    (url : List Char)
    (_hmatch : jsTest true src.urlRegex url = true)
    (hfail : idExtractorNoGroup src url = true) :
    src.extractPaperId url = baseExtractPaperId src url := by
  unfold idExtractorNoGroup at hfail
  cases hp : parseRegex src.idRegexString with
  | none =>
    unfold CustomSourceIntegration.extractPaperId
      CustomSourceIntegration.extractPaperIdE
    rw [extractTry_parse_none hp]
  | some r =>
    rw [hp] at hfail
    change ((jsMatch true r url).isNone || groupCount r == 0) = true at hfail
    rcases (by simpa using hfail :
        jsMatch true r url = none ∨ groupCount r = 0) with hj | hg
    · exact extractPaperId_of_try
        ((extractTry_parse_some hp).trans (extractTryMatch_no_match hj))
    · exact extractPaperId_of_try
        ((extractTry_parse_some hp).trans (extractTryMatch_no_group hg))

/-- Witness for the amended C3: a pattern whose id regex `"zz"` does not
match the URL `"qz"`, while the url matcher `"(q)"` does. -/
theorem claim3_witness :
    CustomSourceIntegration.extractPaperId (srcOfPattern ⟨"w", "W", "(q)", "zz"⟩)
      "qz".data =
      baseExtractPaperId (srcOfPattern ⟨"w", "W", "(q)", "zz"⟩) "qz".data :=
  claim3_fallback_on_no_group (srcOfPattern ⟨"w", "W", "(q)", "zz"⟩) "qz".data
    (by decide) (by decide)

/-- Claim C2: after a configuration change delivering
`sourcePatterns.newValue = []`, for every manager state whose registered
sources are all tracked in the bookkeeping set (as every state built through
`registerCustomSource` is), the registry and the bookkeeping set are both
left empty by the one atomic `handleStorageChanges` step, and identification
returns "no match" for every URL until new patterns are registered. -/
theorem claim2_empty_patterns_clears_everything (st : ManagerV2)
    (url : List Char)
    (h : ∀ s ∈ st.sources, s.id ∈ st.customSourceIds) :
    (handleStorageChangesV2 (some []) st).sources = [] ∧
    (handleStorageChangesV2 (some []) st).customSourceIds = ∅ ∧
    managerExtractPaperId (handleStorageChangesV2 (some []) st).sources url
      = none := by
  have hs : (handleStorageChangesV2 (some []) st).sources = [] := by
    unfold handleStorageChangesV2 clearCustomSourcesV2
    simp only [Option.getD_some, List.foldl_nil]
    rw [List.filter_eq_nil_iff]
    intro s hsmem
    simpa using h s hsmem
  refine ⟨hs, ?_, ?_⟩
  · unfold handleStorageChangesV2 clearCustomSourcesV2
    simp only [Option.getD_some, List.foldl_nil]
  · rw [hs]
    rfl

/-- Witness for C2: a manager holding the registered arXiv default pattern,
then receiving the empty-pattern-set configuration change; the sample URL no
longer identifies. -/
theorem claim2_witness :
    (handleStorageChangesV2 (some [])
      (registerCustomSourceV2 arxivPattern
        { sources := [], customSourceIds := ∅ })).sources = [] ∧
    (handleStorageChangesV2 (some [])
      (registerCustomSourceV2 arxivPattern
        { sources := [], customSourceIds := ∅ })).customSourceIds = ∅ ∧
    managerExtractPaperId
      (handleStorageChangesV2 (some [])
        (registerCustomSourceV2 arxivPattern
          { sources := [], customSourceIds := ∅ })).sources
      "https://arxiv.org/abs/2301.00001".data = none :=
  claim2_empty_patterns_clears_everything
    (registerCustomSourceV2 arxivPattern { sources := [], customSourceIds := ∅ })
    "https://arxiv.org/abs/2301.00001".data (by decide)

/-- If the duplicate-id loop passes, the pattern ids are pairwise distinct
and none of them was in the already-seen set. -/
theorem checkDuplicateIds_ok :
    ∀ (l : List SourcePattern) (seen : Finset String),
    checkDuplicateIds l seen = .ok () →
    (l.map (fun p => p.id)).Nodup ∧ ∀ p ∈ l, p.id ∉ seen := by
  intro l
  induction l with
  | nil => intro seen _; exact ⟨List.nodup_nil, by simp⟩
  | cons p rest ih =>
    intro seen h
    unfold checkDuplicateIds at h
    by_cases hmem : p.id ∈ seen
    · rw [if_pos hmem] at h; cases h
    · rw [if_neg hmem] at h
      obtain ⟨hnd, hrest⟩ := ih (insert p.id seen) h
      refine ⟨List.nodup_cons.mpr ⟨?_, hnd⟩, ?_⟩
      · intro hin
        obtain ⟨q, hq, hqid⟩ := List.mem_map.mp hin
        exact (hrest q hq) (hqid ▸ Finset.mem_insert_self q.id seen)
      · intro q hq
        rcases List.mem_cons.mp hq with rfl | hq'
        · exact hmem
        · exact fun hin => (hrest q hq') (Finset.mem_insert_of_mem hin)

/-- If the per-pattern loop passes, every pattern passes its check. -/
theorem checkPatterns_ok :
    ∀ (l : List SourcePattern), checkPatterns l = .ok () →
    ∀ p ∈ l, checkPattern p = .ok () := by
  intro l
  induction l with
  | nil => intro _ p hp; cases hp
  | cons q rest ih =>
    intro h p hp
    unfold checkPatterns at h
    cases hq : checkPattern q with
    | error e => rw [hq] at h; cases h
    | ok u =>
      rw [hq] at h
      rcases List.mem_cons.mp hp with rfl | hp'
      · cases u; exact hq
      · exact ih h p hp'

/-- What passing the per-pattern check means: all four required fields are
present and both regex strings compile. -/
theorem checkPattern_ok {p : SourcePattern} (h : checkPattern p = .ok ()) :
    p.id ≠ "" ∧ p.name ≠ "" ∧ p.urlPattern ≠ "" ∧ p.idRegex ≠ "" ∧
    (parseRegex p.urlPattern).isSome = true ∧
    (parseRegex p.idRegex).isSome = true := by
  unfold checkPattern at h
  split_ifs at h with h1 h2 h3 h4
  cases hu : parseRegex p.urlPattern with
  | none => rw [hu] at h; cases hi : parseRegex p.idRegex <;> rw [hi] at h <;> cases h
  | some ru =>
    rw [hu] at h
    cases hi : parseRegex p.idRegex with
    | none => rw [hi] at h; cases h
    | some ri => exact ⟨h1, h2, h3, h4, rfl, rfl⟩

/-- Claim C6: on a malformed pattern set — an unparseable regex, a missing
required field, or two patterns sharing an id — `validateSettings` throws,
and because validation strictly precedes saving in the save handler, the
stored settings and the source-manager registry are left unchanged and the
error is surfaced. -/
theorem claim6_validation_rejects_before_saving (apiOk : Bool) (s : Settings)
    (storage : StorageState) (mgr : ManagerV2)
    (hm : malformedPatternSet s.sourcePatterns) :
    (validateSettings apiOk s).isOk = false ∧
    (saveButtonClick apiOk s storage mgr).1 = storage ∧
    (saveButtonClick apiOk s storage mgr).2.1 = mgr ∧
    (saveButtonClick apiOk s storage mgr).2.2.isSome = true := by
  cases hv : validateSettings apiOk s with
  | error e =>
    refine ⟨rfl, ?_, ?_, ?_⟩ <;> simp [saveButtonClick, hv]
  | ok u =>
    exfalso
    unfold validateSettings at hv
    split_ifs at hv with h1 h2 h3
    cases hd : checkDuplicateIds s.sourcePatterns ∅ with
    | error e => rw [hd] at hv; cases hv
    | ok u2 =>
      rw [hd] at hv
      cases u2
      obtain ⟨hnd, -⟩ := checkDuplicateIds_ok s.sourcePatterns ∅ hd
      cases u
      rcases hm with ⟨p, hp, hbad⟩ | ⟨p, hp, hbad⟩ | hdup
      · obtain ⟨-, -, -, -, hu, hi⟩ :=
          checkPattern_ok (checkPatterns_ok s.sourcePatterns hv p hp)
        rcases hbad with hb | hb <;> simp_all
      · obtain ⟨f1, f2, f3, f4, -, -⟩ :=
          checkPattern_ok (checkPatterns_ok s.sourcePatterns hv p hp)
        rcases hbad with hb | hb | hb | hb <;> simp_all
      · exact hdup hnd

/-- Witness for C6: a single pattern whose `urlPattern` `"("` does not
compile is rejected; storage and registry stay as they were. -/
theorem claim6_witness :
    (validateSettings true
      { githubRepo := none, githubToken := none,
        sourcePatterns := [⟨"a", "A", "(", "x"⟩] }).isOk = false ∧
    (saveButtonClick true
      { githubRepo := none, githubToken := none,
        sourcePatterns := [⟨"a", "A", "(", "x"⟩] }
      { githubRepo := none, githubToken := none, sourcePatterns := none }
      { sources := [], customSourceIds := ∅ }).1 =
      { githubRepo := none, githubToken := none, sourcePatterns := none } ∧
    (saveButtonClick true
      { githubRepo := none, githubToken := none,
        sourcePatterns := [⟨"a", "A", "(", "x"⟩] }
      { githubRepo := none, githubToken := none, sourcePatterns := none }
      { sources := [], customSourceIds := ∅ }).2.1 =
      { sources := [], customSourceIds := ∅ } ∧
    (saveButtonClick true
      { githubRepo := none, githubToken := none,
        sourcePatterns := [⟨"a", "A", "(", "x"⟩] }
      { githubRepo := none, githubToken := none, sourcePatterns := none }
      { sources := [], customSourceIds := ∅ }).2.2.isSome = true :=
  claim6_validation_rejects_before_saving true
    { githubRepo := none, githubToken := none,
      sourcePatterns := [⟨"a", "A", "(", "x"⟩] }
    { githubRepo := none, githubToken := none, sourcePatterns := none }
    { sources := [], customSourceIds := ∅ }
    (by unfold malformedPatternSet; decide)

/-- Claim C8: starting a session while another is `Active` first ends the
previous session — it moves to the archive with `endedAt = now`, which is
`≤` the new session's `startedAt` — and only then activates the new one;
afterwards exactly one `Active` session exists. -/
theorem claim8_start_ends_previous_first (maxGap now : Nat)
    (srcId pid : String) (st : SessionState) (s : Session)
    (hcur : st.current = some s)
    (hended : ∀ x ∈ st.ended, x.endedAt.isSome = true) :
    (startSession maxGap now srcId pid st).ended =
      st.ended ++ [{ accrue maxGap now s with endedAt := some now }] ∧
    ({ accrue maxGap now s with endedAt := some now } : Session).endedAt.getD 0
      ≤ now ∧
    (startSession maxGap now srcId pid st).current =
      some { sourceId := srcId, paperId := pid, startedAt := now,
             lastHeartbeatAt := now, endedAt := none,
             accumulatedActiveMs := 0 } ∧
    activeCount (startSession maxGap now srcId pid st) = 1 := by
  refine ⟨?_, le_refl now, rfl, ?_⟩
  · unfold startSession endSession
    rw [hcur]
  · unfold activeCount startSession endSession
    rw [hcur]
    simp only [Option.isSome_some, if_pos, List.filter_append]
    have h1 : st.ended.filter (fun x => x.endedAt.isNone) = [] := by
      rw [List.filter_eq_nil_iff]
      intro x hx h
      have hx2 := hended x hx
      rw [Option.isNone_iff_eq_none] at h
      rw [h] at hx2
      cases hx2
    rw [h1]
    rfl

/-- Witness for C8: a start at time 50 while a session begun at time 10 is
active. -/
theorem claim8_witness :
    (startSession 300000 50 "doi" "10.1/x"
      { current := some ⟨"arxiv", "2301.00001", 10, 10, none, 0⟩,
        ended := [] }).ended =
      [] ++ [{ (accrue 300000 50 ⟨"arxiv", "2301.00001", 10, 10, none, 0⟩) with
               endedAt := some 50 }] ∧
    ({ (accrue 300000 50 ⟨"arxiv", "2301.00001", 10, 10, none, 0⟩) with
       endedAt := some 50 } : Session).endedAt.getD 0 ≤ 50 ∧
    (startSession 300000 50 "doi" "10.1/x"
      { current := some ⟨"arxiv", "2301.00001", 10, 10, none, 0⟩,
        ended := [] }).current =
      some { sourceId := "doi", paperId := "10.1/x", startedAt := 50,
             lastHeartbeatAt := 50, endedAt := none,
             accumulatedActiveMs := 0 } ∧
    activeCount (startSession 300000 50 "doi" "10.1/x"
      { current := some ⟨"arxiv", "2301.00001", 10, 10, none, 0⟩,
        ended := [] }) = 1 :=
  claim8_start_ends_previous_first 300000 50 "doi" "10.1/x"
    { current := some ⟨"arxiv", "2301.00001", 10, 10, none, 0⟩, ended := [] }
    ⟨"arxiv", "2301.00001", 10, 10, none, 0⟩
    rfl (by simp)

/-- Delivering the heartbeats one by one from the end of the list. -/
theorem runHeartbeats_append_single (maxGap : Nat) (ts : List Nat) (t : Nat)
    (st : SessionState) :
    runHeartbeats maxGap (ts ++ [t]) st =
      recordHeartbeat maxGap t (runHeartbeats maxGap ts st) := by
  unfold runHeartbeats
  rw [List.foldl_append]
  rfl

/-- State after `N` heartbeats at times `t0, t0 + d, …, t0 + (N-1)·d`
delivered to a session started at `t0`: the accumulated active time is
`(N-1)·d` (the heartbeat at the start instant contributes 0, each later one
`d`). -/
theorem runHeartbeats_uniform (maxGap d t0 : Nat) (srcId pid : String)
    (hd : d ≤ maxGap) :
    ∀ N : Nat,
    runHeartbeats maxGap ((List.range N).map (fun i => t0 + d * i))
      (startSession maxGap t0 srcId pid { current := none, ended := [] }) =
      { current := some { sourceId := srcId, paperId := pid, startedAt := t0,
                          lastHeartbeatAt := t0 + d * (N - 1), endedAt := none,
                          accumulatedActiveMs := (N - 1) * d },
        ended := [] } := by
  intro N
  induction N with
  | zero =>
    simp [runHeartbeats, startSession, endSession]
  | succ n ih =>
    rw [List.range_succ, List.map_append]
    simp only [List.map_cons, List.map_nil]
    rw [runHeartbeats_append_single, ih]
    unfold recordHeartbeat accrue
    simp only [Nat.add_sub_cancel]
    cases n with
    | zero =>
      simp [Nat.sub_self]
    | succ m =>
      have hsub : t0 + d * (m + 1) - (t0 + d * (m + 1 - 1)) = d := by
        simp only [Nat.add_sub_cancel, Nat.mul_succ]
        omega
      rw [hsub, min_eq_left hd]
      have hacc : (m + 1 - 1) * d + d = (m + 1) * d := by
        simp only [Nat.add_sub_cancel, Nat.succ_mul]
      rw [hacc]

/-- Claim C9: for an `Active` session receiving `N` heartbeats spaced `d`
apart (the first at the start instant) with `d < maxGapMs`, the accumulated
active time is exactly `(N-1)·d`; each single heartbeat adds
`min(now - lastHeartbeatAt, maxGapMs)` and updates `lastHeartbeatAt`, so a
gap exceeding `maxGapMs` contributes at most `maxGapMs`. -/
theorem claim9_heartbeat_accrual (maxGap d t0 N : Nat) (srcId pid : String)
    (s : Session) (now : Nat) (hd : d < maxGap) :
    (runHeartbeats maxGap ((List.range N).map (fun i => t0 + d * i))
      (startSession maxGap t0 srcId pid
        { current := none, ended := [] })).current =
      some { sourceId := srcId, paperId := pid, startedAt := t0,
             lastHeartbeatAt := t0 + d * (N - 1), endedAt := none,
             accumulatedActiveMs := (N - 1) * d } ∧
    (recordHeartbeat maxGap now { current := some s, ended := [] }).current =
      some { s with
             accumulatedActiveMs :=
               s.accumulatedActiveMs + min (now - s.lastHeartbeatAt) maxGap,
             lastHeartbeatAt := now } ∧
    min (now - s.lastHeartbeatAt) maxGap ≤ maxGap := by
  refine ⟨?_, rfl, min_le_right _ _⟩
  rw [runHeartbeats_uniform maxGap d t0 srcId pid (le_of_lt hd) N]

/-- Witness for C9: three heartbeats 30 s apart on a session started at
time 1000 with a 5-minute gap cap accumulate 60000 ms; a single heartbeat
after a long gap adds at most the cap. -/
theorem claim9_witness :
    (runHeartbeats 300000 ((List.range 3).map (fun i => 1000 + 30000 * i))
      (startSession 300000 1000 "arxiv" "2301.00001"
        { current := none, ended := [] })).current =
      some { sourceId := "arxiv", paperId := "2301.00001", startedAt := 1000,
             lastHeartbeatAt := 1000 + 30000 * (3 - 1), endedAt := none,
             accumulatedActiveMs := (3 - 1) * 30000 } ∧
    (recordHeartbeat 300000 900000
      { current := some ⟨"arxiv", "2301.00001", 1000, 1000, none, 0⟩,
        ended := [] }).current =
      some { sourceId := "arxiv", paperId := "2301.00001", startedAt := 1000,
             lastHeartbeatAt := 900000, endedAt := none,
             accumulatedActiveMs := 0 + min (900000 - 1000) 300000 } ∧
    min (900000 - 1000) 300000 ≤ 300000 :=
  claim9_heartbeat_accrual 300000 30000 1000 3 "arxiv" "2301.00001"
    { sourceId := "arxiv", paperId := "2301.00001", startedAt := 1000,
      lastHeartbeatAt := 1000, endedAt := none, accumulatedActiveMs := 0 }
    900000 (by decide)

/-- Replacing-insert preserves the id sequence when the id is already
registered. -/
theorem registerSourceList_map_id (src : CustomSourceIntegration) :
    ∀ l : List CustomSourceIntegration,
    src.id ∈ l.map (fun s => s.id) →
    (registerSourceList src l).map (fun s => s.id) = l.map (fun s => s.id) := by
  intro l
  induction l with
  | nil => intro h; simp at h
  | cons s rest ih =>
    intro h
    unfold registerSourceList
    by_cases he : s.id = src.id
    · rw [if_pos he]
      simp [he]
    · rw [if_neg he]
      have hmem : src.id ∈ rest.map (fun s => s.id) := by
        rcases List.mem_cons.mp (by simpa only [List.map_cons] using h) with h1 | h1
        · exact absurd h1.symm he
        · exact h1
      simp only [List.map_cons, ih hmem]

/-- Replacing-insert appends when the id is new. -/
theorem registerSourceList_append_of_not_mem (src : CustomSourceIntegration) :
    ∀ l : List CustomSourceIntegration,
    src.id ∉ l.map (fun s => s.id) →
    registerSourceList src l = l ++ [src] := by
  intro l
  induction l with
  | nil => intro _; rfl
  | cons s rest ih =>
    intro h
    unfold registerSourceList
    have he : ¬ s.id = src.id := by
      intro he
      exact h (by simp [he.symm])
    rw [if_neg he, ih (fun hm => h (by simp [hm]))]
    rfl

/-- After a replacing-insert of a present id into a duplicate-free registry,
the entries carrying that id are exactly the inserted one. -/
theorem registerSourceList_filter_self (src : CustomSourceIntegration) :
    ∀ l : List CustomSourceIntegration,
    (l.map (fun s => s.id)).Nodup →
    src.id ∈ l.map (fun s => s.id) →
    (registerSourceList src l).filter (fun s => s.id == src.id) = [src] := by
  intro l
  induction l with
  | nil => intro _ h; simp at h
  | cons s rest ih =>
    intro hnd h
    obtain ⟨hs_not, hnd'⟩ := List.nodup_cons.mp
      (by simpa only [List.map_cons] using hnd)
    unfold registerSourceList
    by_cases he : s.id = src.id
    · rw [if_pos he]
      rw [List.filter_cons_of_pos (by simp)]
      have hrest : rest.filter (fun x => x.id == src.id) = [] := by
        rw [List.filter_eq_nil_iff]
        intro x hx hbeq
        have hxid : x.id = src.id := by simpa using hbeq
        exact hs_not (by
          rw [he]
          exact hxid ▸ List.mem_map_of_mem (fun s => s.id) hx)
      rw [hrest]
    · rw [if_neg he]
      have hmem : src.id ∈ rest.map (fun s => s.id) := by
        rcases List.mem_cons.mp (by simpa only [List.map_cons] using h) with h1 | h1
        · exact absurd h1.symm he
        · exact h1
      rw [List.filter_cons_of_neg (by simpa using he), ih hnd' hmem]

/-- `Map.set` preserves the key sequence when the key is present. -/
theorem mapSet_map_fst {α : Type} (k : String) (v : α) :
    ∀ m : List (String × α), k ∈ m.map Prod.fst →
    (mapSet k v m).map Prod.fst = m.map Prod.fst := by
  intro m
  induction m with
  | nil => intro h; simp at h
  | cons q rest ih =>
    intro h
    unfold mapSet
    by_cases he : q.1 = k
    · rw [if_pos he]
      simp [he]
    · rw [if_neg he]
      have hmem : k ∈ rest.map Prod.fst := by
        rcases List.mem_cons.mp (by simpa only [List.map_cons] using h) with h1 | h1
        · exact absurd h1.symm he
        · exact h1
      simp only [List.map_cons, ih hmem]

/-- `Map.set` appends when the key is new. -/
theorem mapSet_append_of_not_mem {α : Type} (k : String) (v : α) :
    ∀ m : List (String × α), k ∉ m.map Prod.fst →
    mapSet k v m = m ++ [(k, v)] := by
  intro m
  induction m with
  | nil => intro _; rfl
  | cons q rest ih =>
    intro h
    unfold mapSet
    have he : ¬ q.1 = k := by
      intro he
      exact h (by simp [he.symm])
    rw [if_neg he, ih (fun hm => h (by simp [hm]))]
    rfl

/-- After `Map.set` of a present key into a duplicate-free map, the entries
carrying that key are exactly the new binding. -/
theorem mapSet_filter_self {α : Type} (k : String) (v : α) :
    ∀ m : List (String × α), (m.map Prod.fst).Nodup →
    k ∈ m.map Prod.fst →
    (mapSet k v m).filter (fun q => q.1 == k) = [(k, v)] := by
  intro m
  induction m with
  | nil => intro _ h; simp at h
  | cons q rest ih =>
    intro hnd h
    obtain ⟨hq_not, hnd'⟩ := List.nodup_cons.mp
      (by simpa only [List.map_cons] using hnd)
    unfold mapSet
    by_cases he : q.1 = k
    · rw [if_pos he]
      rw [List.filter_cons_of_pos (by simp)]
      have hrest : rest.filter (fun x => x.1 == k) = [] := by
        rw [List.filter_eq_nil_iff]
        intro x hx hbeq
        have hxk : x.1 = k := by simpa using hbeq
        exact hq_not (by
          rw [he]
          exact hxk ▸ List.mem_map_of_mem Prod.fst hx)
      rw [hrest]
    · rw [if_neg he]
      have hmem : k ∈ rest.map Prod.fst := by
        rcases List.mem_cons.mp (by simpa only [List.map_cons] using h) with h1 | h1
        · exact absurd h1.symm he
        · exact h1
      rw [List.filter_cons_of_neg (by simpa using he), ih hnd' hmem]

/-- Membership after `Map.set`: the new binding or an old one. -/
theorem mem_mapSet {α : Type} {k : String} {v : α} :
    ∀ {m : List (String × α)} {q : String × α},
    q ∈ mapSet k v m → q = (k, v) ∨ q ∈ m := by
  intro m
  induction m with
  | nil =>
    intro q hq
    unfold mapSet at hq
    exact Or.inl (List.mem_singleton.mp hq)
  | cons p rest ih =>
    intro q hq
    unfold mapSet at hq
    by_cases he : p.1 = k
    · rw [if_pos he] at hq
      rcases List.mem_cons.mp hq with h1 | h1
      · exact Or.inl h1
      · exact Or.inr (List.mem_cons_of_mem p h1)
    · rw [if_neg he] at hq
      rcases List.mem_cons.mp hq with h1 | h1
      · exact Or.inr (h1 ▸ List.mem_cons_self p rest)
      · rcases ih h1 with h2 | h2
        · exact Or.inl h2
        · exact Or.inr (List.mem_cons_of_mem p h2)

/-- Filtering the values of a key-faithful map by id is filtering the map by
key. -/
theorem filter_map_snd_by_id (k : String) :
    ∀ m : List (String × CustomSourceIntegration),
    (∀ q ∈ m, q.2.id = q.1) →
    (m.map Prod.snd).filter (fun s => s.id == k) =
      (m.filter (fun q => q.1 == k)).map Prod.snd := by
  intro m
  induction m with
  | nil => intro _; rfl
  | cons q rest ih =>
    intro hkv
    have hq : q.2.id = q.1 := hkv q (List.mem_cons_self q rest)
    simp only [List.map_cons]
    by_cases he : q.1 = k
    · rw [List.filter_cons_of_pos (by simp [hq, he]),
        List.filter_cons_of_pos (by simp [he])]
      simp only [List.map_cons]
      rw [ih (fun x hx => hkv x (List.mem_cons_of_mem q hx))]
    · rw [List.filter_cons_of_neg (by simp [hq, he]),
        List.filter_cons_of_neg (by simp [he])]
      rw [ih (fun x hx => hkv x (List.mem_cons_of_mem q hx))]

/-- Sources surviving the custom-id filter never carry a custom id, so a
second filter for such an id leaves nothing. -/
theorem filter_filter_id_nil (ids : Finset String) (k : String) (hk : k ∈ ids)
    (l : List CustomSourceIntegration) :
    ((l.filter (fun s => decide (s.id ∉ ids))).filter
      (fun s => s.id == k)) = [] := by
  rw [List.filter_eq_nil_iff]
  intro s hs hbeq
  have h1 : s.id ∉ ids := by simpa using List.of_mem_filter hs
  have h2 : s.id = k := by simpa using hbeq
  exact h1 (h2 ▸ hk)

/-- Counting ids outside `insert x ids` over a list not containing `x` is
counting ids outside `ids`. -/
theorem countP_notin_insert_of_not_mem (x : String) (ids : Finset String) :
    ∀ ms : List String, x ∉ ms →
    ms.countP (fun i => decide (i ∉ insert x ids)) =
      ms.countP (fun i => decide (i ∉ ids)) := by
  intro ms
  induction ms with
  | nil => intro _; rfl
  | cons i rest ih =>
    intro h
    have hix : i ≠ x := fun he => h (he ▸ List.mem_cons_self i rest)
    rw [List.countP_cons, List.countP_cons,
      ih (fun hm => h (List.mem_cons_of_mem i hm))]
    congr 1
    simp [Finset.mem_insert, hix]

/-- Inserting a present, previously-untracked id into the tracking set
removes exactly one entry from the count of untracked ids. -/
theorem countP_notin_insert_mem (x : String) (ids : Finset String) :
    ∀ ms : List String, ms.Nodup → x ∈ ms → x ∉ ids →
    ms.countP (fun i => decide (i ∉ insert x ids)) + 1 =
      ms.countP (fun i => decide (i ∉ ids)) := by
  intro ms
  induction ms with
  | nil => intro _ h _; cases h
  | cons i rest ih =>
    intro hnd hmem hx
    obtain ⟨hi_not, hnd'⟩ := List.nodup_cons.mp hnd
    rw [List.countP_cons, List.countP_cons]
    rcases List.mem_cons.mp hmem with heq | hmem'
    · subst heq
      rw [countP_notin_insert_of_not_mem x ids rest hi_not]
      have hp1 : (decide (x ∉ insert x ids) : Bool) = false := by
        simp [Finset.mem_insert_self]
      have hp2 : (decide (x ∉ ids) : Bool) = true := by simpa using hx
      rw [hp1, hp2]
      simp
    · have hix : i ≠ x := fun he => hi_not (he ▸ hmem')
      have heq : (decide (i ∉ insert x ids) : Bool) = decide (i ∉ ids) :=
        decide_eq_decide.mpr (by simp [Finset.mem_insert, hix])
      rw [heq]
      have := ih hnd' hmem' hx
      omega

/-- The size of `getAllSources` as a count over ids. -/
theorem getAllSourcesV1_length (st : ManagerV1) :
    (getAllSourcesV1 st).length =
      (st.sources.map (fun s => s.id)).countP
        (fun i => decide (i ∉ st.customSourceIds)) +
      st.customSources.length := by
  unfold getAllSourcesV1
  rw [List.length_append, List.length_map]
  congr 1
  rw [← List.countP_eq_length_filter, List.countP_map]
  rfl

/-- Claim C5, amended: for every well-formed registry state and every
pattern `p` whose `urlPattern` compiles and whose id is already registered,
registering `p` replaces the earlier pattern: `getAllSources` keeps its
length, and both in the listing and in the parent registry that
identification walks, the sole entry carrying `p.id` now holds `p`'s
`urlPattern` and `idRegex`. -/
theorem claim5_register_same_id_replaces (st : ManagerV1) (p : SourcePattern)
    (hwf : managerV1WF st)
    (hreg : p.id ∈ (getAllSourcesV1 st).map (fun s => s.id))
    (hparse : (parseRegex p.urlPattern).isSome = true) :
    (getAllSourcesV1 (registerCustomSourceV1 p st)).length =
      (getAllSourcesV1 st).length ∧
    ((getAllSourcesV1 (registerCustomSourceV1 p st)).filter
        (fun s => s.id == p.id)).map
      (fun s => (s.urlPatternString, s.idRegexString)) =
      [(p.urlPattern, p.idRegex)] ∧
    (((registerCustomSourceV1 p st).sources).filter
        (fun s => s.id == p.id)).map
      (fun s => (s.urlPatternString, s.idRegexString)) =
      [(p.urlPattern, p.idRegex)] := by
  obtain ⟨hndP, hndC, hkv, hkeys⟩ := hwf
  obtain ⟨r, hr⟩ := Option.isSome_iff_exists.mp hparse
  set src : CustomSourceIntegration :=
    ⟨p.id, p.name, p.urlPattern, r, p.idRegex⟩ with hsrc_def
  have hmake : CustomSourceIntegration.make p.id p.name p.urlPattern p.idRegex
      = .ok src := by
    unfold CustomSourceIntegration.make
    rw [hr]
  have hsrc_eq : (registerCustomSourceV1 p st).sources =
      registerSourceList src st.sources := by
    unfold registerCustomSourceV1 registerCustomSourceV1E
    rw [hmake]
  have hids_eq : (registerCustomSourceV1 p st).customSourceIds =
      insert p.id st.customSourceIds := by
    unfold registerCustomSourceV1 registerCustomSourceV1E
    rw [hmake]
  have hcust_eq : (registerCustomSourceV1 p st).customSources =
      mapSet p.id src st.customSources := by
    unfold registerCustomSourceV1 registerCustomSourceV1E
    rw [hmake]
  -- the id is present in the parent registry, and when it is not a custom
  -- key it is also untracked
  have hparent : p.id ∈ st.sources.map (fun s => s.id) ∧
      (p.id ∉ st.customSources.map Prod.fst →
        p.id ∉ st.customSourceIds) := by
    by_cases hc : p.id ∈ st.customSources.map Prod.fst
    · exact ⟨(hkeys p.id hc).2, fun h => absurd hc h⟩
    · unfold getAllSourcesV1 at hreg
      rw [List.map_append] at hreg
      rcases List.mem_append.mp hreg with h1 | h1
      · obtain ⟨s, hsf, hsid⟩ := List.mem_map.mp h1
        have hs_par : s ∈ st.sources := List.mem_of_mem_filter hsf
        have hs_notin : s.id ∉ st.customSourceIds := by
          simpa using List.of_mem_filter hsf
        exact ⟨hsid ▸ List.mem_map_of_mem (fun s => s.id) hs_par,
          fun _ => hsid ▸ hs_notin⟩
      · exfalso
        obtain ⟨s, hs, hsid⟩ := List.mem_map.mp h1
        obtain ⟨q, hq, hq2⟩ := List.mem_map.mp hs
        exact hc (by
          rw [← hsid, ← hq2, hkv q hq]
          exact List.mem_map_of_mem Prod.fst hq)
  obtain ⟨hin_par, huntracked⟩ := hparent
  have hmap_par : (registerSourceList src st.sources).map (fun s => s.id) =
      st.sources.map (fun s => s.id) :=
    registerSourceList_map_id src st.sources hin_par
  have hfilter_par :
      ((registerCustomSourceV1 p st).sources).filter (fun s => s.id == p.id) =
        [src] := by
    rw [hsrc_eq]
    exact registerSourceList_filter_self src st.sources hndP hin_par
  refine ⟨?_, ?_, by rw [hfilter_par]; simp [hsrc_def]⟩
  · -- the listing keeps its length
    rw [getAllSourcesV1_length, getAllSourcesV1_length, hsrc_eq, hids_eq,
      hcust_eq, hmap_par]
    by_cases hc : p.id ∈ st.customSources.map Prod.fst
    · have hins : insert p.id st.customSourceIds = st.customSourceIds :=
        Finset.insert_eq_self.mpr (hkeys p.id hc).1
      rw [hins]
      have hlen : (mapSet p.id src st.customSources).length =
          st.customSources.length := by
        rw [← List.length_map _ Prod.fst, mapSet_map_fst p.id src _ hc,
          List.length_map]
      rw [hlen]
    · have hnotin_ids : p.id ∉ st.customSourceIds := huntracked hc
      rw [mapSet_append_of_not_mem p.id src st.customSources hc,
        List.length_append]
      have hcnt := countP_notin_insert_mem p.id st.customSourceIds
        (st.sources.map (fun s => s.id)) hndP hin_par hnotin_ids
      simp only [List.length_singleton]
      omega
  · -- the listing's sole entry for the id carries the new strings
    unfold getAllSourcesV1
    rw [hsrc_eq, hids_eq, hcust_eq, List.filter_append, List.map_append]
    rw [filter_filter_id_nil (insert p.id st.customSourceIds) p.id
      (Finset.mem_insert_self p.id st.customSourceIds)
      (registerSourceList src st.sources)]
    have hkv' : ∀ q ∈ mapSet p.id src st.customSources, q.2.id = q.1 := by
      intro q hq
      rcases mem_mapSet hq with heq | hq'
      · rw [heq]
      · exact hkv q hq'
    rw [filter_map_snd_by_id p.id (mapSet p.id src st.customSources) hkv']
    by_cases hc : p.id ∈ st.customSources.map Prod.fst
    · rw [mapSet_filter_self p.id src st.customSources hndC hc]
      rfl
    · rw [mapSet_append_of_not_mem p.id src st.customSources hc,
        List.filter_append]
      have hnil : st.customSources.filter (fun q => q.1 == p.id) = [] := by
        rw [List.filter_eq_nil_iff]
        intro q hq hbeq
        exact hc (by
          rw [← show q.1 = p.id from by simpa using hbeq]
          exact List.mem_map_of_mem Prod.fst hq)
      rw [hnil]
      simp [hsrc_def]

/-- Claim C5, counterexample: registering a pattern with the already-used id
`"x"` but the unparseable `urlPattern` `"("` does not replace the earlier
pattern — the registry is unchanged and the old url pattern `"(x)"` stays in
effect. -/
theorem claim5_counterexample :
    ("x" : String) ∈ (getAllSourcesV1 (registerCustomSourceV1
        ⟨"x", "X", "(x)", "(x)"⟩ ⟨[], ∅, []⟩)).map (fun s => s.id) ∧
    registerCustomSourceV1 ⟨"x", "X2", "(", "(y)"⟩
        (registerCustomSourceV1 ⟨"x", "X", "(x)", "(x)"⟩ ⟨[], ∅, []⟩) =
      registerCustomSourceV1 ⟨"x", "X", "(x)", "(x)"⟩ ⟨[], ∅, []⟩ ∧
    (getAllSourcesV1 (registerCustomSourceV1 ⟨"x", "X2", "(", "(y)"⟩
        (registerCustomSourceV1 ⟨"x", "X", "(x)", "(x)"⟩ ⟨[], ∅, []⟩))).map
      (fun s => s.urlPatternString) = ["(x)"] ∧
    ("(x)" : String) ≠ "(" := by
  exact ⟨by decide, by decide, by decide, by decide⟩

/-- Witness for the amended C5: replacing the registered pattern `"x"` (url
pattern `"(x)"`) by one with the same id and url pattern `"([a-z]+)"`. -/
theorem claim5_witness :
    (getAllSourcesV1 (registerCustomSourceV1 ⟨"x", "X2", "([a-z]+)", "([a-z]+)"⟩
        (registerCustomSourceV1 ⟨"x", "X", "(x)", "(x)"⟩ ⟨[], ∅, []⟩))).length =
      (getAllSourcesV1 (registerCustomSourceV1
        ⟨"x", "X", "(x)", "(x)"⟩ ⟨[], ∅, []⟩)).length ∧
    ((getAllSourcesV1 (registerCustomSourceV1 ⟨"x", "X2", "([a-z]+)", "([a-z]+)"⟩
        (registerCustomSourceV1 ⟨"x", "X", "(x)", "(x)"⟩ ⟨[], ∅, []⟩))).filter
        (fun s => s.id == ("x" : String))).map
      (fun s => (s.urlPatternString, s.idRegexString)) =
      [(("([a-z]+)" : String), ("([a-z]+)" : String))] ∧
    (((registerCustomSourceV1 ⟨"x", "X2", "([a-z]+)", "([a-z]+)"⟩
        (registerCustomSourceV1 ⟨"x", "X", "(x)", "(x)"⟩
          ⟨[], ∅, []⟩)).sources).filter
        (fun s => s.id == ("x" : String))).map
      (fun s => (s.urlPatternString, s.idRegexString)) =
      [(("([a-z]+)" : String), ("([a-z]+)" : String))] :=
  claim5_register_same_id_replaces
    (registerCustomSourceV1 ⟨"x", "X", "(x)", "(x)"⟩ ⟨[], ∅, []⟩)
    ⟨"x", "X2", "([a-z]+)", "([a-z]+)"⟩
    (by unfold managerV1WF; decide) (by decide) (by decide)

/-- Every lowercase image in the case-folding table is a letter. -/
theorem upperLowerTable_snd_ne_newline :
    ∀ p ∈ upperLowerTable, p.2 ≠ '\n' := by decide

/-- A successful association-list lookup returns a stored value. -/
theorem lookup_mem_snd {α β : Type} [BEq α] :
    ∀ (ps : List (α × β)) (a : α) (b : β),
    ps.lookup a = some b → ∃ p ∈ ps, p.2 = b := by
  intro ps
  induction ps with
  | nil => intro a b h; cases h
  | cons p rest ih =>
    intro a b h
    unfold List.lookup at h
    cases hb : (a == p.1) with
    | true =>
      rw [hb] at h
      exact ⟨p, List.mem_cons_self p rest, Option.some.inj h⟩
    | false =>
      rw [hb] at h
      obtain ⟨q, hq, hq2⟩ := ih a b h
      exact ⟨q, List.mem_cons_of_mem p hq, hq2⟩

/-- Case folding creates no new newlines. -/
theorem lowerChar_eq_newline {c : Char} (h : lowerChar c = '\n') : c = '\n' := by
  unfold lowerChar at h
  cases hl : upperLowerTable.lookup c with
  | none => rw [hl] at h; exact h
  | some l =>
    rw [hl] at h
    obtain ⟨p, hp, hp2⟩ := lookup_mem_snd upperLowerTable c l hl
    exact absurd (hp2.trans h) (upperLowerTable_snd_ne_newline p hp)

/-- Characters with the same case folding agree on being a newline. -/
theorem beq_newline_of_lower {a b : Char} (h : lowerChar a = lowerChar b) :
    (a == '\n') = (b == '\n') := by
  by_cases ha : a = '\n'
  · have hb : b = '\n' :=
      lowerChar_eq_newline (by rw [← h, ha]; rfl)
    rw [ha, hb]
  · by_cases hb : b = '\n'
    · exact absurd (lowerChar_eq_newline (by rw [h, hb]; rfl)) ha
    · simp [ha, hb]

/-- Case-insensitive character comparison only sees the case folding. -/
theorem charEq_of_lower {a b : Char} (h : lowerChar a = lowerChar b) :
    ∀ c, charEq true a c = charEq true b c := by
  intro c
  unfold charEq
  rw [if_pos rfl, if_pos rfl, h]

/-- Case-insensitive class membership only sees the case folding. -/
theorem inClass_of_lower {a b : Char} (h : lowerChar a = lowerChar b)
    (l : List Char) : inClass true a l = inClass true b l := by
  unfold inClass
  rw [funext (charEq_of_lower h)]

/-- Case folding distributes over capture concatenation. -/
theorem capsKey_append (c1 c2 : Caps) :
    capsKey (c1 ++ c2) = capsKey c1 ++ capsKey c2 :=
  List.map_append _ c1 c2

/-- Mapping with functions that agree modulo a key function, over lists that
agree modulo that key. -/
theorem map_congr_of_key {α β γ : Type} (f : α → γ) (g1 g2 : α → β) :
    ∀ (l1 l2 : List α), l1.map f = l2.map f →
    (∀ a1 a2, f a1 = f a2 → g1 a1 = g2 a2) →
    l1.map g1 = l2.map g2 := by
  intro l1
  induction l1 with
  | nil =>
    intro l2 h _
    rw [List.map_nil] at h
    rw [List.map_eq_nil_iff.mp h.symm]
    rfl
  | cons a t ih =>
    intro l2 h hg
    cases l2 with
    | nil => simp at h
    | cons b t2 =>
      simp only [List.map_cons, List.cons.injEq] at h
      simp only [List.map_cons]
      rw [hg a b h.1, ih t2 h.2 hg]

/-- Flat-mapping with functions whose results agree modulo a key function,
over lists that agree modulo another key function. -/
theorem flatMap_congr_of_key {α β γ δ : Type} (f : α → γ) (k : β → δ)
    (g1 g2 : α → List β) :
    ∀ (l1 l2 : List α), l1.map f = l2.map f →
    (∀ a1 a2, f a1 = f a2 → (g1 a1).map k = (g2 a2).map k) →
    (l1.flatMap g1).map k = (l2.flatMap g2).map k := by
  intro l1
  induction l1 with
  | nil =>
    intro l2 h _
    rw [List.map_nil] at h
    rw [List.map_eq_nil_iff.mp h.symm]
    rfl
  | cons a t ih =>
    intro l2 h hg
    cases l2 with
    | nil => simp at h
    | cons b t2 =>
      simp only [List.map_cons, List.cons.injEq] at h
      rw [List.flatMap_cons, List.flatMap_cons, List.map_append,
        List.map_append, hg a b h.1, ih t2 h.2 hg]

/-- One step of `matchL` unfolded (definitional, by iota reduction). -/
theorem matchL_succ (ci : Bool) (flen n : Nat) (r : Regex) (s : List Char) :
    matchL ci flen (n + 1) r s = matchStep ci flen (matchL ci flen n) r s :=
  rfl

/-- Appending case-equivalent capture lists to case-equivalent result lists
keeps them case-equivalent. -/
theorem map_resKey_appendCaps {c1 c2 : Caps} (hc : capsKey c1 = capsKey c2)
    {l1 l2 : List (List Char × Caps)} (hl : l1.map resKey = l2.map resKey) :
    (l1.map (fun q => (q.1, q.2 ++ c1))).map resKey =
      (l2.map (fun q => (q.1, q.2 ++ c2))).map resKey := by
  rw [List.map_map, List.map_map]
  have hcomp : ∀ (c : Caps),
      (resKey ∘ (fun q : List Char × Caps => (q.1, q.2 ++ c))) =
        ((fun kq : List Char × List (Nat × List Char) =>
          (kq.1, kq.2 ++ capsKey c)) ∘ resKey) := by
    intro c
    funext q
    simp [resKey, Function.comp, capsKey_append]
  rw [hcomp c1, hcomp c2, hc, ← List.map_map, ← List.map_map, hl]

/-- Case-insensitive matching treats URLs that differ only in letter case
identically: the backtracking results correspond position by position, with
suffixes and captured texts equal up to case. -/
theorem matchL_caseFold (flen : Nat) :
    ∀ (fuel : Nat) (r : Regex) (s1 s2 : List Char),
    s1.map lowerChar = s2.map lowerChar →
    (matchL true flen fuel r s1).map resKey =
      (matchL true flen fuel r s2).map resKey := by
  intro fuel
  induction fuel with
  | zero => intro r s1 s2 _; rfl
  | succ n ih =>
    intro r s1 s2 hs
    have hlen : s1.length = s2.length := by
      rw [← List.length_map s1 lowerChar, hs, List.length_map]
    rw [matchL_succ, matchL_succ]
    cases r with
    | emp =>
      show ([(s1, ([] : Caps))].map resKey) = ([(s2, ([] : Caps))].map resKey)
      simp [resKey, capsKey, hs]
    | lit c =>
      cases s1 with
      | nil =>
        cases s2 with
        | nil => rfl
        | cons b t2 => simp at hs
      | cons a t1 =>
        cases s2 with
        | nil => simp at hs
        | cons b t2 =>
          simp only [List.map_cons, List.cons.injEq] at hs
          show (if charEq true a c then [(t1, ([] : Caps))] else []).map resKey
            = (if charEq true b c then [(t2, ([] : Caps))] else []).map resKey
          rw [charEq_of_lower hs.1 c]
          by_cases hcc : charEq true b c = true
          · rw [if_pos hcc, if_pos hcc]
            simp [resKey, capsKey, hs.2]
          · rw [if_neg hcc, if_neg hcc]
    | dot =>
      cases s1 with
      | nil =>
        cases s2 with
        | nil => rfl
        | cons b t2 => simp at hs
      | cons a t1 =>
        cases s2 with
        | nil => simp at hs
        | cons b t2 =>
          simp only [List.map_cons, List.cons.injEq] at hs
          show (if a == '\n' then [] else [(t1, ([] : Caps))]).map resKey
            = (if b == '\n' then [] else [(t2, ([] : Caps))]).map resKey
          rw [beq_newline_of_lower hs.1]
          by_cases hcc : (b == '\n') = true
          · rw [if_pos hcc, if_pos hcc]
          · rw [if_neg hcc, if_neg hcc]
            simp [resKey, capsKey, hs.2]
    | cls neg l =>
      cases s1 with
      | nil =>
        cases s2 with
        | nil => rfl
        | cons b t2 => simp at hs
      | cons a t1 =>
        cases s2 with
        | nil => simp at hs
        | cons b t2 =>
          simp only [List.map_cons, List.cons.injEq] at hs
          show (if (inClass true a l) != neg then [(t1, ([] : Caps))] else []).map resKey
            = (if (inClass true b l) != neg then [(t2, ([] : Caps))] else []).map resKey
          rw [inClass_of_lower hs.1 l]
          by_cases hcc : ((inClass true b l) != neg) = true
          · rw [if_pos hcc, if_pos hcc]
            simp [resKey, capsKey, hs.2]
          · rw [if_neg hcc, if_neg hcc]
    | seq r1 r2 =>
      exact flatMap_congr_of_key resKey resKey _ _ _ _ (ih r1 s1 s2 hs)
        (fun p1 p2 hp =>
          map_resKey_appendCaps (congrArg Prod.snd hp)
            (ih r2 p1.1 p2.1 (congrArg Prod.fst hp)))
    | alt r1 r2 =>
      show (matchL true flen n r1 s1 ++ matchL true flen n r2 s1).map resKey
        = (matchL true flen n r1 s2 ++ matchL true flen n r2 s2).map resKey
      rw [List.map_append, List.map_append, ih r1 s1 s2 hs, ih r2 s1 s2 hs]
    | opt r1 =>
      show (matchL true flen n r1 s1 ++ [(s1, ([] : Caps))]).map resKey
        = (matchL true flen n r1 s2 ++ [(s2, ([] : Caps))]).map resKey
      rw [List.map_append, List.map_append, ih r1 s1 s2 hs]
      simp [resKey, capsKey, hs]
    | star r1 =>
      show ((matchL true flen n r1 s1).flatMap (fun p =>
            if p.1.length < s1.length then
              (matchL true flen n (.star r1) p.1).map
                (fun q => (q.1, q.2 ++ p.2))
            else []) ++ [(s1, ([] : Caps))]).map resKey
        = ((matchL true flen n r1 s2).flatMap (fun p =>
            if p.1.length < s2.length then
              (matchL true flen n (.star r1) p.1).map
                (fun q => (q.1, q.2 ++ p.2))
            else []) ++ [(s2, ([] : Caps))]).map resKey
      rw [List.map_append, List.map_append]
      have hmain := flatMap_congr_of_key resKey resKey
        (fun p : List Char × Caps =>
          if p.1.length < s1.length then
            (matchL true flen n (.star r1) p.1).map
              (fun q => (q.1, q.2 ++ p.2))
          else [])
        (fun p : List Char × Caps =>
          if p.1.length < s2.length then
            (matchL true flen n (.star r1) p.1).map
              (fun q => (q.1, q.2 ++ p.2))
          else [])
        (matchL true flen n r1 s1) (matchL true flen n r1 s2)
        (ih r1 s1 s2 hs)
        (fun p1 p2 hp => by
          have hp1 : p1.1.map lowerChar = p2.1.map lowerChar :=
            congrArg Prod.fst hp
          have hplen : p1.1.length = p2.1.length := by
            rw [← List.length_map p1.1 lowerChar, hp1, List.length_map]
          show (if p1.1.length < s1.length then
              (matchL true flen n (.star r1) p1.1).map
                (fun q => (q.1, q.2 ++ p1.2))
            else []).map resKey
            = (if p2.1.length < s2.length then
              (matchL true flen n (.star r1) p2.1).map
                (fun q => (q.1, q.2 ++ p2.2))
            else []).map resKey
          rw [hplen, hlen]
          by_cases hcc : p2.1.length < s2.length
          · rw [if_pos hcc, if_pos hcc]
            exact map_resKey_appendCaps (congrArg Prod.snd hp)
              (ih (.star r1) p1.1 p2.1 hp1)
          · rw [if_neg hcc, if_neg hcc])
      rw [hmain]
      simp [resKey, capsKey, hs]
    | plus r1 =>
      exact flatMap_congr_of_key resKey resKey _ _ _ _ (ih r1 s1 s2 hs)
        (fun p1 p2 hp =>
          map_resKey_appendCaps (congrArg Prod.snd hp)
            (ih (.star r1) p1.1 p2.1 (congrArg Prod.fst hp)))
    | group m r1 =>
      show ((matchL true flen n r1 s1).map
          (fun p => (p.1, setCap p.2 m (s1.take (s1.length - p.1.length))))).map resKey
        = ((matchL true flen n r1 s2).map
          (fun p => (p.1, setCap p.2 m (s2.take (s2.length - p.1.length))))).map resKey
      rw [List.map_map, List.map_map]
      have hcomp : ∀ (s : List Char),
          (resKey ∘ (fun p : List Char × Caps =>
            (p.1, setCap p.2 m (s.take (s.length - p.1.length))))) =
          ((fun kq : List Char × List (Nat × List Char) =>
            (kq.1, (m, (s.map lowerChar).take
              ((s.map lowerChar).length - kq.1.length)) :: kq.2)) ∘ resKey) := by
        intro s
        funext p
        simp [resKey, capsKey, setCap, Function.comp, List.map_take]
      rw [hcomp s1, hcomp s2, hs, ← List.map_map, ← List.map_map,
        ih r1 s1 s2 hs]
    | bol =>
      show (if s1.length == flen then [(s1, ([] : Caps))] else []).map resKey
        = (if s2.length == flen then [(s2, ([] : Caps))] else []).map resKey
      rw [hlen]
      by_cases hcc : (s2.length == flen) = true
      · rw [if_pos hcc, if_pos hcc]
        simp [resKey, capsKey, hs]
      · rw [if_neg hcc, if_neg hcc]
    | eol =>
      cases s1 with
      | nil =>
        cases s2 with
        | nil => rfl
        | cons b t2 => simp at hs
      | cons a t1 =>
        cases s2 with
        | nil => simp at hs
        | cons b t2 => rfl

/-- `Option.orElse` respects a congruence modulo a key function. -/
theorem orElse_map_congr {α β : Type} (f : α → β) {o1 o2 t1 t2 : Option α}
    (ho : o1.map f = o2.map f) (ht : t1.map f = t2.map f) :
    (o1 <|> t1).map f = (o2 <|> t2).map f := by
  cases o1 <;> cases o2 <;> simp_all

/-- The selected first results of case-equivalent result lists have
case-equivalent captures. -/
theorem head_map_congr {l1 l2 : List (List Char × Caps)}
    (h : l1.map resKey = l2.map resKey) :
    (l1.head?.map Prod.snd).map capsKey =
      (l2.head?.map Prod.snd).map capsKey := by
  cases l1 with
  | nil =>
    cases l2 with
    | nil => rfl
    | cons b t2 => simp at h
  | cons a t1 =>
    cases l2 with
    | nil => simp at h
    | cons b t2 =>
      simp only [List.map_cons, List.cons.injEq] at h
      show some (capsKey a.2) = some (capsKey b.2)
      exact congrArg some (congrArg Prod.snd h.1)

/-- The regex search treats URLs differing only in letter case
identically, up to the case of the captured texts. -/
theorem searchFrom_caseFold (flen : Nat) (r : Regex) :
    ∀ (s1 s2 : List Char), s1.map lowerChar = s2.map lowerChar →
    (searchFrom true flen r s1).map capsKey =
      (searchFrom true flen r s2).map capsKey := by
  intro s1
  induction s1 with
  | nil =>
    intro s2 h
    cases s2 with
    | nil => rfl
    | cons b t2 => simp at h
  | cons a t1 ih =>
    intro s2 h
    cases s2 with
    | nil => simp at h
    | cons b t2 =>
      have hlen : (a :: t1).length = (b :: t2).length := by
        rw [← List.length_map (a :: t1) lowerChar, h, List.length_map]
      unfold searchFrom
      apply orElse_map_congr
      · have hfuel : fuelFor r (a :: t1) = fuelFor r (b :: t2) := by
          unfold fuelFor
          rw [hlen]
        rw [hfuel]
        exact head_map_congr (matchL_caseFold flen (fuelFor r (b :: t2)) r
          (a :: t1) (b :: t2) h)
      · have ht : t1.map lowerChar = t2.map lowerChar := by
          simp only [List.map_cons, List.cons.injEq] at h
          exact h.2
        exact ih t2 ht

/-- `String.match` treats URLs differing only in letter case identically,
up to the case of the captured texts. -/
theorem jsMatch_caseFold (r : Regex) {u1 u2 : List Char}
    (h : u1.map lowerChar = u2.map lowerChar) :
    (jsMatch true r u1).map capsKey = (jsMatch true r u2).map capsKey := by
  unfold jsMatch
  have hlen : u1.length = u2.length := by
    rw [← List.length_map u1 lowerChar, h, List.length_map]
  rw [hlen]
  exact searchFrom_caseFold u2.length r u1 u2 h

/-- Group lookup commutes with case folding of a capture list. -/
theorem lookup_capsKey (n : Nat) :
    ∀ (c : Caps), (capsKey c).lookup n =
      (c.lookup n).map (fun v => v.map lowerChar) := by
  intro c
  induction c with
  | nil => rfl
  | cons p rest ih =>
    show List.lookup n ((p.1, p.2.map lowerChar) :: capsKey rest) =
      (List.lookup n (p :: rest)).map (fun v => v.map lowerChar)
    unfold List.lookup
    cases hb : (n == p.1) with
    | true => rfl
    | false => exact ih

/-- Options that agree modulo a key function agree on being `some`. -/
theorem isSome_of_map_eq {α β : Type} (f : α → β) {o1 o2 : Option α}
    (h : o1.map f = o2.map f) : o1.isSome = o2.isSome := by
  cases o1 <;> cases o2 <;> simp_all

/-- When the id regex string does not compile, `extractPaperId` is the base
extraction (the thrown constructor error is caught). -/
theorem extractPaperId_parse_none {src : CustomSourceIntegration}
    {url : List Char} (hp : parseRegex src.idRegexString = none) :
    src.extractPaperId url = baseExtractPaperId src url := by
  unfold CustomSourceIntegration.extractPaperId
    CustomSourceIntegration.extractPaperIdE
  rw [extractTry_parse_none hp]

/-- When the id regex matches and declares a capture group, the `try` block
returns `match[1]`. -/
theorem extractTryMatch_group {r : Regex} {url : List Char} {caps : Caps}
    (hj : jsMatch true r url = some caps) (hg : 1 ≤ groupCount r) :
    extractTryMatch r url = .ok (some (caps.lookup 1)) := by
  unfold extractTryMatch
  rw [hj]
  exact if_pos hg

/-- The base extraction is case-insensitive up to the case of the extracted
id. -/
theorem baseExtract_caseFold (src : CustomSourceIntegration)
    {u1 u2 : List Char} (h : u1.map lowerChar = u2.map lowerChar) :
    (baseExtractPaperId src u1).map (fun v => v.map lowerChar) =
      (baseExtractPaperId src u2).map (fun v => v.map lowerChar) := by
  unfold baseExtractPaperId
  have hm := jsMatch_caseFold src.urlRegex h
  cases h1 : jsMatch true src.urlRegex u1 with
  | none =>
    cases h2 : jsMatch true src.urlRegex u2 with
    | none => rfl
    | some c2 => rw [h1, h2] at hm; simp at hm
  | some c1 =>
    cases h2 : jsMatch true src.urlRegex u2 with
    | none => rw [h1, h2] at hm; simp at hm
    | some c2 =>
      rw [h1, h2] at hm
      simp only [Option.map_some', Option.some.injEq] at hm
      show (if 1 ≤ groupCount src.urlRegex then List.lookup 1 c1
          else none).map (fun v => v.map lowerChar) =
        (if 1 ≤ groupCount src.urlRegex then List.lookup 1 c2
          else none).map (fun v => v.map lowerChar)
      by_cases hg : 1 ≤ groupCount src.urlRegex
      · rw [if_pos hg, if_pos hg, ← lookup_capsKey, ← lookup_capsKey, hm]
      · rw [if_neg hg, if_neg hg]

/-- `extractPaperId` is case-insensitive up to the case of the extracted
id. -/
theorem extract_caseFold (src : CustomSourceIntegration) {u1 u2 : List Char}
    (h : u1.map lowerChar = u2.map lowerChar) :
    (src.extractPaperId u1).map (fun v => v.map lowerChar) =
      (src.extractPaperId u2).map (fun v => v.map lowerChar) := by
  cases hp : parseRegex src.idRegexString with
  | none =>
    rw [extractPaperId_parse_none hp, extractPaperId_parse_none hp]
    exact baseExtract_caseFold src h
  | some r =>
    have hm := jsMatch_caseFold r h
    cases h1 : jsMatch true r u1 with
    | none =>
      cases h2 : jsMatch true r u2 with
      | none =>
        rw [extractPaperId_of_try
            ((extractTry_parse_some hp).trans (extractTryMatch_no_match h1)),
          extractPaperId_of_try
            ((extractTry_parse_some hp).trans (extractTryMatch_no_match h2))]
        exact baseExtract_caseFold src h
      | some c2 => rw [h1, h2] at hm; simp at hm
    | some c1 =>
      cases h2 : jsMatch true r u2 with
      | none => rw [h1, h2] at hm; simp at hm
      | some c2 =>
        rw [h1, h2] at hm
        simp only [Option.map_some', Option.some.injEq] at hm
        by_cases hg : 1 ≤ groupCount r
        · rw [extractPaperId_of_try
              ((extractTry_parse_some hp).trans (extractTryMatch_group h1 hg)),
            extractPaperId_of_try
              ((extractTry_parse_some hp).trans (extractTryMatch_group h2 hg))]
          show (c1.lookup 1).map (fun v => v.map lowerChar) =
            (c2.lookup 1).map (fun v => v.map lowerChar)
          rw [← lookup_capsKey, ← lookup_capsKey, hm]
        · have hg0 : groupCount r = 0 := by omega
          rw [extractPaperId_of_try
              ((extractTry_parse_some hp).trans (extractTryMatch_no_group hg0)),
            extractPaperId_of_try
              ((extractTry_parse_some hp).trans (extractTryMatch_no_group hg0))]
          exact baseExtract_caseFold src h

/-- Claim C7, counterexample: the DOI default pattern on two URLs differing
only in letter case gives different identification results — both succeed,
but the extracted paper ids (`"10.1000/ABC"` vs `"10.1000/abc"`) preserve
the URL's original case. -/
theorem claim7_counterexample :
    caseVariant "https://doi.org/10.1000/ABC".data
      "https://doi.org/10.1000/abc".data ∧
    CustomSourceIntegration.extractPaperId (srcOfPattern doiPattern)
        "https://doi.org/10.1000/ABC".data ≠
      CustomSourceIntegration.extractPaperId (srcOfPattern doiPattern)
        "https://doi.org/10.1000/abc".data := by
  exact ⟨by unfold caseVariant; decide, by decide⟩

/-- Claim C7, amended: both regexes are compiled with the `'i'` flag, so on
URLs differing only in letter case the url matcher's verdict, the success
of extraction, and the extracted id up to letter case all coincide; the
extracted id itself, however, preserves the URL's original case, so the
identification results are equal only up to case. -/
theorem claim7_case_insensitive_up_to_case (src : CustomSourceIntegration)
    (u1 u2 : List Char) (h : caseVariant u1 u2) :
    jsTest true src.urlRegex u1 = jsTest true src.urlRegex u2 ∧
    (src.extractPaperId u1).isSome = (src.extractPaperId u2).isSome ∧
    (src.extractPaperId u1).map (fun v => v.map lowerChar) =
      (src.extractPaperId u2).map (fun v => v.map lowerChar) := by
  have h' : u1.map lowerChar = u2.map lowerChar := h
  refine ⟨?_, ?_, extract_caseFold src h'⟩
  · unfold jsTest
    exact isSome_of_map_eq capsKey (jsMatch_caseFold src.urlRegex h')
  · exact isSome_of_map_eq (fun v => v.map lowerChar) (extract_caseFold src h')

/-- Witness for the amended C7 at the DOI default pattern and the two
concrete case-variant URLs. -/
theorem claim7_witness :
    jsTest true (srcOfPattern doiPattern).urlRegex
        "https://doi.org/10.1000/ABC".data =
      jsTest true (srcOfPattern doiPattern).urlRegex
        "https://doi.org/10.1000/abc".data ∧
    (CustomSourceIntegration.extractPaperId (srcOfPattern doiPattern)
        "https://doi.org/10.1000/ABC".data).isSome =
      (CustomSourceIntegration.extractPaperId (srcOfPattern doiPattern)
        "https://doi.org/10.1000/abc".data).isSome ∧
    (CustomSourceIntegration.extractPaperId (srcOfPattern doiPattern)
        "https://doi.org/10.1000/ABC".data).map (fun v => v.map lowerChar) =
      (CustomSourceIntegration.extractPaperId (srcOfPattern doiPattern)
        "https://doi.org/10.1000/abc".data).map (fun v => v.map lowerChar) :=
  claim7_case_insensitive_up_to_case (srcOfPattern doiPattern)
    "https://doi.org/10.1000/ABC".data "https://doi.org/10.1000/abc".data
    (by unfold caseVariant; decide)

end PapersFeed
